import Mathlib

/-!
Verification of the OpenEcho agent client (TypeScript sources under `src/`)
against its natural-language specification.

The development shallowly embeds the relevant program parts:

* `src/tools.ts`   — `apiRequest` retry transport, `analyze_sentiment`,
  `analyze_anomaly` analytics helpers;
* `src/heartbeat.ts` — the cooldown tracker (`canPost` / `canComment` /
  `recordPost` / `recordComment` / `shouldRunHeartbeat`);
* `src/agent.ts`   — `executeTool`, `isToolFailure`, `isSearchFailure`,
  `fallbackSearch`, and the two streaming orchestration loops
  (`chatStreamWithClaude`, `chatStreamWithOpenAI`) plus the non-streaming
  `chatWithClaude`.

JavaScript machine floats are modelled by `ℚ`, timestamps (`Date.now()`
milliseconds) by `ℤ`, JSON values by the inductive `JValue`, and the
external network by explicit outcome scripts passed in as parameters.
-/

namespace OpenEcho

/-- A JSON-like runtime value, modelling the `unknown` values that flow
through the tool layer (tool inputs, tool results, parsed response bodies). -/
inductive JValue where
  | null
  | bool (b : Bool)
  | num (q : ℚ)
  | str (s : String)
  | arr (elems : List JValue)
  | obj (fields : List (String × JValue))

/-- Property lookup on a JS object literal (first matching key). -/
def lookupField : List (String × JValue) → String → Option JValue
  | [], _ => none
  | (k, v) :: rest, key => if k = key then some v else lookupField rest key

/-- JS truthiness restricted to `JValue` (`undefined` is modelled by a
failed lookup, handled at call sites). -/
def jsTruthy : JValue → Bool
  | JValue.null => false
  | JValue.bool b => b
  | JValue.num q => !(q = 0)
  | JValue.str s => !(s = "")
  | JValue.arr _ => true
  | JValue.obj _ => true

/-- The string a field coerces to via `typeof x === "string" ? x : ""` and
`x ?? ""` on the string-typed fields the agent reads. -/
def jstr : Option JValue → String
  | some (JValue.str s) => s
  | _ => ""

/-- JS `String.prototype.includes`: substring containment. -/
def strIncludes (hay needle : String) : Bool :=
  decide (List.IsInfix needle.data hay.data)

/-- JS `String.prototype.toLowerCase` (ASCII-faithful). -/
def strToLower (s : String) : String := String.mk (s.data.map Char.toLower)

/-- Whitespace for `String.prototype.trim`. -/
def wsChar (c : Char) : Bool := c = ' ' || c = '\t' || c = '\n' || c = '\r'

/-- JS `String.prototype.trim`. -/
def strTrim (s : String) : String :=
  String.mk (((s.data.dropWhile wsChar).reverse.dropWhile wsChar).reverse)

-- ============================================================================
-- heartbeat.ts — cooldown tracker
-- ============================================================================

/-- Millisecond timestamps, as returned by `Date.now()` / `getTime()`. -/
abbrev Millis := Int

/-- `HeartbeatState` from `heartbeat.ts`, with the ISO-string timestamps
replaced by their parsed millisecond values (`null` ↦ `none`). The fields
not read by any gated check (`checkCount`, `lastResult`) are omitted. -/
structure HeartbeatState where
  lastCheck : Option Millis
  lastPost : Option Millis
  lastComment : Option Millis

/-- `DEFAULT_HEARTBEAT_INTERVAL_MS = 4 * 60 * 60 * 1000` (heartbeat.ts). -/
def DEFAULT_HEARTBEAT_INTERVAL_MS : Millis := 4 * 60 * 60 * 1000

/-- `MIN_HEARTBEAT_INTERVAL_MS = 1 * 60 * 60 * 1000` (heartbeat.ts). -/
def MIN_HEARTBEAT_INTERVAL_MS : Millis := 1 * 60 * 60 * 1000

/-- `HeartbeatManager.shouldRunHeartbeat` (heartbeat.ts): clamp the interval
to the minimum, then compare elapsed time since `lastCheck`. `now` stands
for `Date.now()`. -/
def shouldRunHeartbeat (state : HeartbeatState) (now : Millis)
    (intervalMs : Millis := DEFAULT_HEARTBEAT_INTERVAL_MS) : Bool :=
  let effectiveInterval := max intervalMs MIN_HEARTBEAT_INTERVAL_MS
  match state.lastCheck with
  | none => true
  | some lastCheckTime => decide (now - lastCheckTime ≥ effectiveInterval)

/-- `HeartbeatManager.canPost` (heartbeat.ts): 30-minute cooldown. -/
def canPost (state : HeartbeatState) (now : Millis) : Bool :=
  match state.lastPost with
  | none => true
  | some lastPostTime =>
    let cooldownMs : Millis := 30 * 60 * 1000
    decide (now - lastPostTime ≥ cooldownMs)

/-- `HeartbeatManager.canComment` (heartbeat.ts): 20-second cooldown. -/
def canComment (state : HeartbeatState) (now : Millis) : Bool :=
  match state.lastComment with
  | none => true
  | some lastCommentTime =>
    let cooldownMs : Millis := 20 * 1000
    decide (now - lastCommentTime ≥ cooldownMs)

/-- `HeartbeatManager.recordPost` (heartbeat.ts): store the current time. -/
def recordPost (state : HeartbeatState) (now : Millis) : HeartbeatState :=
  { state with lastPost := some now }

/-- `HeartbeatManager.recordComment` (heartbeat.ts). -/
def recordComment (state : HeartbeatState) (now : Millis) : HeartbeatState :=
  { state with lastComment := some now }

-- ============================================================================
-- tools.ts — analytics helpers (pure computation cores)
-- ============================================================================

/-- The fields of a `Post` (tools.ts) read by the analytics helpers. -/
structure Post where
  id : String
  title : String
  upvotes : ℕ
  downvotes : ℕ
  comment_count : ℕ
deriving DecidableEq

/-- Per-item sentiment classification labels (tools.ts `analyze_sentiment`). -/
inductive ItemSentiment where
  | positive
  | negative
  | neutral
deriving DecidableEq, Repr

/-- Aggregate sentiment labels (tools.ts `analyze_sentiment`). -/
inductive OverallSentiment where
  | positive
  | negative
  | neutral
  | mixed
deriving DecidableEq, Repr

/-- One entry of the `details` array built by `analyze_sentiment`. -/
structure SentimentDetail where
  post_id : String
  title : String
  sentiment : ItemSentiment
  ratio : ℚ

/-- The `sentiment` payload returned by `analyze_sentiment` on success. -/
structure SentimentAnalysis where
  overall : OverallSentiment
  score : ℚ
  details : List SentimentDetail

/-- The per-post detail computation inside `analyze_sentiment` (tools.ts):
ratio `upvotes / (upvotes + downvotes)` (0.5 when no votes), positive above
0.6, negative below 0.4, else neutral. -/
def sentimentDetail (post : Post) : SentimentDetail :=
  let total : ℚ := (post.upvotes : ℚ) + (post.downvotes : ℚ)
  let ratio : ℚ := if total > 0 then (post.upvotes : ℚ) / total else 0.5
  let sentiment : ItemSentiment :=
    if ratio > 0.6 then ItemSentiment.positive
    else if ratio < 0.4 then ItemSentiment.negative
    else ItemSentiment.neutral
  { post_id := post.id, title := post.title, sentiment := sentiment, ratio := ratio }

/-- The computation core of `analyze_sentiment` (tools.ts, lines 957-993),
applied to the already-fetched post collection. `Except.error` models the
`{ success: false, error: ... }` return on an empty collection. -/
def analyze_sentiment (posts : List Post) : Except String SentimentAnalysis :=
  if posts.length = 0 then
    Except.error "没有找到可分析的帖子"
  else
    let details := posts.map sentimentDetail
    let avgRatio := (details.map (fun d => d.ratio)).sum / (details.length : ℚ)
    let positiveCount := details.countP (fun d => d.sentiment == ItemSentiment.positive)
    let negativeCount := details.countP (fun d => d.sentiment == ItemSentiment.negative)
    let overall : OverallSentiment :=
      if (positiveCount : ℚ) > (details.length : ℚ) * 0.6 then OverallSentiment.positive
      else if (negativeCount : ℚ) > (details.length : ℚ) * 0.6 then OverallSentiment.negative
      else if positiveCount > 0 ∧ negativeCount > 0 then OverallSentiment.mixed
      else OverallSentiment.neutral
    Except.ok { overall := overall, score := avgRatio, details := details }

/-- One entry of the `unusualPosts` array built by `analyze_anomaly`
(tools.ts). The presentational `reason` string is not modelled. -/
structure UnusualPost where
  post_id : String
  title : String
  score : ℕ
deriving DecidableEq

/-- The four anomaly conditions of `analyze_anomaly` (tools.ts, lines
1117-1153) for one post against the batch averages, and the severity score
they accumulate (+2, +2, +1, +1). -/
def anomalyScore (avgUpvotes avgDownvotes avgComments : ℚ) (post : Post) : ℕ :=
  (if (post.upvotes : ℚ) > avgUpvotes * 3 then 2 else 0) +
  (if (post.downvotes : ℚ) > avgDownvotes * 3 ∧ post.downvotes > 5 then 2 else 0) +
  (if post.upvotes + post.downvotes > 10 ∧
      (post.downvotes : ℚ) / ((post.upvotes : ℚ) + (post.downvotes : ℚ)) > 0.5
   then 1 else 0) +
  (if (post.comment_count : ℚ) > avgComments * 4 then 1 else 0)

/-- Whether `analyze_anomaly` flags a post (its `reasons` array is
non-empty): the disjunction of the four conditions. -/
def anomalyFlagged (avgUpvotes avgDownvotes avgComments : ℚ) (post : Post) : Bool :=
  decide ((post.upvotes : ℚ) > avgUpvotes * 3) ||
  decide ((post.downvotes : ℚ) > avgDownvotes * 3 ∧ post.downvotes > 5) ||
  decide (post.upvotes + post.downvotes > 10 ∧
    (post.downvotes : ℚ) / ((post.upvotes : ℚ) + (post.downvotes : ℚ)) > 0.5) ||
  decide ((post.comment_count : ℚ) > avgComments * 4)

/-- `avgUpvotes` of the batch (`analyze_anomaly`, tools.ts line 1105). -/
def avgUpvotesOf (posts : List Post) : ℚ :=
  ((posts.map (fun p => (p.upvotes : ℚ))).sum) / (posts.length : ℚ)

/-- `avgDownvotes` of the batch (`analyze_anomaly`, tools.ts line 1106). -/
def avgDownvotesOf (posts : List Post) : ℚ :=
  ((posts.map (fun p => (p.downvotes : ℚ))).sum) / (posts.length : ℚ)

/-- `avgComments` of the batch (`analyze_anomaly`, tools.ts line 1107). -/
def avgCommentsOf (posts : List Post) : ℚ :=
  ((posts.map (fun p => (p.comment_count : ℚ))).sum) / (posts.length : ℚ)

/-- The `unusualPosts` list accumulated by the per-post loop of
`analyze_anomaly` (tools.ts), before sorting and truncation. -/
def unusualPostsOf (posts : List Post) : List UnusualPost :=
  let avgUpvotes := avgUpvotesOf posts
  let avgDownvotes := avgDownvotesOf posts
  let avgComments := avgCommentsOf posts
  posts.filterMap (fun post =>
    if anomalyFlagged avgUpvotes avgDownvotes avgComments post then
      some { post_id := post.id, title := post.title,
             score := anomalyScore avgUpvotes avgDownvotes avgComments post }
    else none)

/-- The computation core of `analyze_anomaly` (tools.ts, lines 1104-1171):
flag posts, sort by severity descending (`sort((a, b) => b.score - a.score)`,
a stable descending sort), and keep the top 10. -/
def analyze_anomaly (posts : List Post) : List UnusualPost :=
  ((unusualPostsOf posts).mergeSort (fun a b => b.score ≤ a.score)).take 10

/-- Modelled from claim C8's wording: the flag condition with "downvote-ratio
over 50% with at least 10 total votes". The code instead requires strictly
more than 10 total votes; this definition exists to exhibit that gap. -/
def claimFlaggedC8 (avgUpvotes avgDownvotes avgComments : ℚ) (post : Post) : Bool :=
  decide ((post.upvotes : ℚ) > avgUpvotes * 3) ||
  decide ((post.downvotes : ℚ) > avgDownvotes * 3 ∧ post.downvotes > 5) ||
  decide (post.upvotes + post.downvotes ≥ 10 ∧
    (post.downvotes : ℚ) / ((post.upvotes : ℚ) + (post.downvotes : ℚ)) > 0.5) ||
  decide ((post.comment_count : ℚ) > avgComments * 4)

/-- First post of the batch witnessing the C8 discrepancy: exactly 10 total
votes with a 60% downvote share. -/
def p1c8 : Post := { id := "p1", title := "t1", upvotes := 4, downvotes := 6, comment_count := 0 }

/-- Second post of the C8 batch, raising the batch averages so that no other
anomaly condition fires for either post. -/
def p2c8 : Post := { id := "p2", title := "t2", upvotes := 40, downvotes := 10, comment_count := 0 }

/-- A single-post batch whose post is flagged by `analyze_anomaly`
(downvote ratio 100% over 20 votes). -/
def qc8 : Post := { id := "q", title := "tq", upvotes := 0, downvotes := 20, comment_count := 0 }

-- ============================================================================
-- tools.ts — apiRequest transport layer
-- ============================================================================

/-- `DEFAULT_MAX_RETRIES = 3` (tools.ts). -/
def DEFAULT_MAX_RETRIES : ℕ := 3

/-- `RETRY_DELAY_BASE_MS = 1000` (tools.ts). -/
def RETRY_DELAY_BASE_MS : ℕ := 1000

/-- The fields `apiRequest` reads from a parsed HTTP response body
(`{}` after a JSON parse failure is all-`none`). -/
structure ResponseBody where
  error : Option String
  hint : Option String
  retry_after_seconds : Option ℚ
  retry_after_minutes : Option ℚ
  daily_remaining : Option ℚ

/-- What one `fetch` attempt yields: an HTTP response with a status and a
parsed body, or a thrown network error. -/
inductive AttemptOutcome where
  | response (status : ℕ) (body : ResponseBody)
  | networkFailure (msg : String)

/-- The `rateLimit` advisory block of an `ApiResponse` (tools.ts). -/
structure RateLimitInfo where
  retryAfterSeconds : Option ℚ
  retryAfterMinutes : Option ℚ
  dailyRemaining : Option ℚ
deriving DecidableEq

/-- The observable part of an `ApiResponse` (tools.ts): success flag, error
and hint strings, rate-limit advisories, and the `debug.status` /
`debug.retries` metadata. The success `data` payload and the identity
fields of `debug` are not modelled. -/
structure ApiResult where
  success : Bool
  error : Option String
  hint : Option String
  rateLimit : Option RateLimitInfo
  debugStatus : Option ℕ
  debugRetries : ℕ

/-- A run of `apiRequest`: the returned result, how many `fetch` attempts
were made, and the `sleep` delays (ms) taken between consecutive attempts. -/
structure ApiTrace where
  result : ApiResult
  attempts : ℕ
  delays : List ℕ

/-- The final `所有重试都失败` return of `apiRequest` (tools.ts, lines
291-305), reached when the retry loop exits. -/
def allFailedResult (maxRetries : ℕ) (lastError : String) (lastStatus : ℕ) : ApiResult :=
  { success := false,
    error := some (if lastError = "" then "请求失败" else lastError),
    hint := some "请检查网络连接，或稍后重试",
    rateLimit := none,
    debugStatus := some lastStatus,
    debugRetries := maxRetries }

/-- The retry loop of `apiRequest` (tools.ts, lines 188-289). `outcomes a`
is what the `fetch` of attempt `a` yields; `fuel = maxRetries - attempt + 1`
counts the loop iterations still allowed, so `fuel = 0` is loop exit. -/
def apiRequestGo (outcomes : ℕ → AttemptOutcome) (maxRetries : ℕ) :
    ℕ → ℕ → String → ℕ → ApiTrace
  | 0, _, lastError, lastStatus =>
    { result := allFailedResult maxRetries lastError lastStatus,
      attempts := 0, delays := [] }
  | fuel + 1, attempt, _, lastStatus =>
    match outcomes attempt with
    | AttemptOutcome.response status body =>
      if 200 ≤ status ∧ status < 300 then
        -- response.ok: success (the identity "last active" touch is a side
        -- effect on the external credential store, not modelled)
        { result := { success := true, error := none, hint := none,
                      rateLimit := none, debugStatus := none, debugRetries := 0 },
          attempts := 1, delays := [] }
      else if status = 429 then
        -- rate limited: terminal, carries the body's advisory fields
        { result := { success := false,
                      error := some (body.error.getD "请求过于频繁，请稍后再试"),
                      hint := body.hint,
                      rateLimit := some { retryAfterSeconds := body.retry_after_seconds,
                                          retryAfterMinutes := body.retry_after_minutes,
                                          dailyRemaining := body.daily_remaining },
                      debugStatus := some 429, debugRetries := attempt },
          attempts := 1, delays := [] }
      else if 400 ≤ status ∧ status < 500 then
        -- other client error: terminal
        { result := { success := false,
                      error := some (body.error.getD ("请求失败: HTTP " ++ toString status)),
                      hint := body.hint,
                      rateLimit := none,
                      debugStatus := some status, debugRetries := attempt },
          attempts := 1, delays := [] }
      else
        -- server error: retryable
        let lastError := body.error.getD ("服务器错误: HTTP " ++ toString status)
        if fuel = 0 then
          -- attempt = maxRetries: terminal server-error return inside the loop
          { result := { success := false, error := some lastError, hint := body.hint,
                        rateLimit := none,
                        debugStatus := some status, debugRetries := attempt },
            attempts := 1, delays := [] }
        else
          let t := apiRequestGo outcomes maxRetries fuel (attempt + 1) lastError status
          { result := t.result, attempts := t.attempts + 1,
            delays := RETRY_DELAY_BASE_MS * attempt :: t.delays }
    | AttemptOutcome.networkFailure msg =>
      let lastError := "网络请求失败: " ++ msg
      if fuel = 0 then
        -- attempt = maxRetries: the loop exits and the final return runs
        { result := allFailedResult maxRetries lastError lastStatus,
          attempts := 1, delays := [] }
      else
        let t := apiRequestGo outcomes maxRetries fuel (attempt + 1) lastError lastStatus
        { result := t.result, attempts := t.attempts + 1,
          delays := RETRY_DELAY_BASE_MS * attempt :: t.delays }

/-- `apiRequest` (tools.ts, lines 157-305). `hasApiKey` models whether
`identityManager.getApiKey` resolved a credential; the retry loop starts at
attempt 1 with `lastError = ""` and `lastStatus = 0`. -/
def apiRequest (hasApiKey : Bool) (outcomes : ℕ → AttemptOutcome)
    (maxRetries : ℕ := DEFAULT_MAX_RETRIES) : ApiTrace :=
  if hasApiKey then
    apiRequestGo outcomes maxRetries maxRetries 1 "" 0
  else
    { result := { success := false,
                  error := some "没有可用的身份或API Key",
                  hint := some "请先运行 'openecho identity add' 创建身份",
                  rateLimit := none, debugStatus := some 401, debugRetries := 0 },
      attempts := 0, delays := [] }

/-- A retryable attempt outcome in the sense of claim C2: an HTTP 5xx
response or a network failure. -/
def retryableOutcome : AttemptOutcome → Prop
  | AttemptOutcome.response status _ => 500 ≤ status ∧ status ≤ 599
  | AttemptOutcome.networkFailure _ => True

/-- The error string `apiRequest` derives from the outcome of its final
attempt when that outcome is retryable. -/
def terminalErrorOf : AttemptOutcome → String
  | AttemptOutcome.response status body =>
    body.error.getD ("服务器错误: HTTP " ++ toString status)
  | AttemptOutcome.networkFailure msg => "网络请求失败: " ++ msg

-- ============================================================================
-- agent.ts — tool execution and the search fallback
-- ============================================================================

/-- A registered tool (tools.ts `ToolDefinition`): `parse` models
`tool.parameters.parse` (a zod parse that either throws — `Except.error` —
or returns the validated input), `handler` the async handler with thrown
exceptions as `Except.error`. -/
structure ToolDefinition where
  parse : JValue → Except String JValue
  handler : JValue → Except String JValue

/-- The tool registry, i.e. `getTool` (tools.ts). -/
def Registry := String → Option ToolDefinition

/-- The `{ error: ... }` object `executeTool` returns on a failure it
caught (agent.ts lines 206, 221). -/
def errObj (message : String) : JValue :=
  JValue.obj [("error", JValue.str message)]

/-- `OpenEchoAgent.isToolFailure` (agent.ts lines 225-229): the result is an
object whose `success` property is strictly `false`. -/
def isToolFailure : JValue → Bool
  | JValue.obj fields =>
    match lookupField fields "success" with
    | some (JValue.bool false) => true
    | _ => false
  | _ => false

/-- The server-fault diagnostic test inside `OpenEchoAgent.isSearchFailure`
(agent.ts lines 233-236): the error string contains "search failed"
case-insensitively, or `debug.status === 500`. -/
def indicatesServerFault (result : JValue) : Bool :=
  match result with
  | JValue.obj fields =>
    let err := jstr (lookupField fields "error")
    let status500 : Bool :=
      match lookupField fields "debug" with
      | some (JValue.obj dfields) =>
        match lookupField dfields "status" with
        | some (JValue.num q) => decide (q = 500)
        | _ => false
      | _ => false
    strIncludes (strToLower err) "search failed" || status500
  | _ => false

/-- `OpenEchoAgent.isSearchFailure` (agent.ts lines 231-237). -/
def isSearchFailure (result : JValue) : Bool :=
  isToolFailure result && indicatesServerFault result

/-- `OpenEchoAgent.extractSearchQuery` (agent.ts lines 239-243). -/
def extractSearchQuery (input : JValue) : String :=
  match input with
  | JValue.obj fields =>
    match lookupField fields "query" with
    | some (JValue.str q) => q
    | _ => ""
  | _ => ""

/-- The feed request issued by `fallbackSearch` (agent.ts lines 248-251):
`{ sort: "new", limit: 100 }`. -/
def fallbackFeedRequest : JValue :=
  JValue.obj [("sort", JValue.str "new"), ("limit", JValue.num 100)]

/-- Field access `p.key` on a post object (`undefined` ↦ `JValue.null`). -/
def jfield (p : JValue) (key : String) : JValue :=
  match p with
  | JValue.obj fields => (lookupField fields key).getD JValue.null
  | _ => JValue.null

/-- Field access `p.key ?? ""` (nullish coalescing to the empty string). -/
def jfieldOrEmpty (p : JValue) (key : String) : JValue :=
  match p with
  | JValue.obj fields =>
    match lookupField fields key with
    | some JValue.null => JValue.str ""
    | some v => v
    | none => JValue.str ""
  | _ => JValue.str ""

/-- The haystack "`${p.title ?? ""} ${p.content ?? ""}`.toLowerCase()" of
`fallbackSearch` (agent.ts line 272). Non-string fields coerce via `jstr`. -/
def postHay (p : JValue) : String :=
  strToLower (jstr (some (jfieldOrEmpty p "title")) ++ " " ++
    jstr (some (jfieldOrEmpty p "content")))

/-- The filter step of `fallbackSearch` (agent.ts lines 269-275): with an
empty trimmed query all posts match, otherwise case-insensitive substring
matching over title+content. -/
def fallbackMatches (query : String) (posts : List JValue) : List JValue :=
  let q := strToLower (strTrim query)
  if q = "" then posts
  else posts.filter (fun p => strIncludes (postHay p) q)

/-- The per-post result item built by `fallbackSearch` (agent.ts lines
279-287), tagged `fallback: true` with `similarity: 0`. -/
def fallbackResultItem (p : JValue) : JValue :=
  JValue.obj
    [("id", jfield p "id"),
     ("type", JValue.str "post"),
     ("title", jfield p "title"),
     ("content", jfieldOrEmpty p "content"),
     ("similarity", JValue.num 0),
     ("post_id", jfield p "id"),
     ("fallback", JValue.bool true)]

/-- The degraded-results note of `fallbackSearch` (agent.ts line 288). -/
def fallbackNote : String :=
  "Moltbook 搜索接口当前失败，已使用最新帖子做近似匹配（非语义搜索，结果可能不完整）。"

/-- `OpenEchoAgent.executeTool` (agent.ts lines 200-223) without its
search-fallback clause (lines 214-217): look up the tool (unknown name →
error object), validate the input and run the handler with every exception
caught into an error object, and return the result. `fallbackSearch`
reaches `executeTool` only with the name `moltbook_get_feed`, for which the
full `executeTool` behaves exactly like this function (see
`executeTool_eq_base`); factoring it out makes the absence of recursion
explicit. -/
def executeToolBase (reg : Registry) (name : String) (input : JValue) : JValue :=
  match reg name with
  | none => errObj ("未知工具: " ++ name)
  | some tool =>
    match tool.parse input with
    | Except.error e => errObj ("工具执行失败: " ++ e)
    | Except.ok validatedInput =>
      match tool.handler validatedInput with
      | Except.error e => errObj ("工具执行失败: " ++ e)
      | Except.ok result => result

/-- `OpenEchoAgent.fallbackSearch` (agent.ts lines 245-291): fetch a recent
window via the feed tool; on an unusable feed result return a terminal
"fallback feed unavailable" failure; otherwise substring-match the query
and return at most 20 approximate results with the degraded-results note. -/
def fallbackSearch (reg : Registry) (input : JValue) : JValue :=
  let query := extractSearchQuery input
  let feed := executeToolBase reg "moltbook_get_feed" fallbackFeedRequest
  match feed with
  | JValue.obj ffields =>
    match lookupField ffields "posts" with
    | some (JValue.arr posts) =>
      if jsTruthy ((lookupField ffields "success").getD JValue.null) then
        JValue.obj
          [("success", JValue.bool true),
           ("results", JValue.arr (((fallbackMatches query posts).take 20).map
             fallbackResultItem)),
           ("note", JValue.str fallbackNote),
           ("query", JValue.str query)]
      else
        JValue.obj
          [("success", JValue.bool false),
           ("error", JValue.str "Search failed (fallback feed unavailable)"),
           ("original", input)]
    | _ =>
      JValue.obj
        [("success", JValue.bool false),
         ("error", JValue.str "Search failed (fallback feed unavailable)"),
         ("original", input)]
  | JValue.arr _ =>
    JValue.obj
      [("success", JValue.bool false),
       ("error", JValue.str "Search failed (fallback feed unavailable)"),
       ("original", input)]
  | _ =>
    JValue.obj
      [("success", JValue.bool false),
       ("error", JValue.str "Search failed (fallback feed unavailable)")]

/-- `OpenEchoAgent.executeTool` (agent.ts lines 200-223): look up the tool,
validate, run the handler — every failure caught into an error object — and,
only for `moltbook_search` results that `isSearchFailure` accepts, run
`fallbackSearch` on the validated input. -/
def executeTool (reg : Registry) (name : String) (input : JValue) : JValue :=
  match reg name with
  | none => errObj ("未知工具: " ++ name)
  | some tool =>
    match tool.parse input with
    | Except.error e => errObj ("工具执行失败: " ++ e)
    | Except.ok validatedInput =>
      match tool.handler validatedInput with
      | Except.error e => errObj ("工具执行失败: " ++ e)
      | Except.ok result =>
        if name = "moltbook_search" ∧ isSearchFailure result = true then
          fallbackSearch reg validatedInput
        else result

-- ============================================================================
-- agent.ts — orchestration loops
-- ============================================================================

/-- `ToolCallResult` (agent.ts lines 28-32): one executed invocation. -/
structure ToolCallResult where
  name : String
  input : JValue
  output : JValue

/-- `StreamEvent` (agent.ts lines 63-68). The `done` payload carries the
accumulated tool calls (the `toolCalls.length > 0 ? toolCalls : undefined`
distinction is flattened to the list itself). -/
inductive StreamEvent where
  | text (content : String)
  | tool_start (name : String)
  | tool_end (name : String) (result : JValue)
  | done (toolCalls : List ToolCallResult)
  | error (message : String)

/-- One `tool_use` block of a Claude response. -/
structure ToolUseBlock where
  id : String
  name : String
  input : JValue

/-- One Claude round's model response: the `text_delta` fragments streamed,
the `tool_use` blocks of the final message, and whether
`stop_reason === "end_turn"`. -/
structure ClaudeMessage where
  textDeltas : List String
  toolUses : List ToolUseBlock
  stopEndTurn : Bool

/-- What round `t` of the Claude conversation does: the API throws (after
some text deltas were already streamed) or a final message arrives. -/
inductive ClaudeRound where
  | throws (textDeltas : List String) (errMsg : String)
  | responds (msg : ClaudeMessage)

/-- A Conversation entry appended by the Claude loop: the assistant message,
or the `tool_result` blocks `(tool_use_id, result)` pushed as a user turn. -/
inductive HistoryItem where
  | assistant (msg : ClaudeMessage)
  | toolResults (results : List (String × JValue))

/-- The events of the `for (const toolUse of toolUseBlocks)` loop (agent.ts
lines 391-412): an adjacent `tool_start` / `tool_end` pair per block, in
request order, with the executor's result on the `tool_end`. -/
def toolPairEvents (exec : String → JValue → JValue) (tus : List ToolUseBlock) :
    List StreamEvent :=
  tus.flatMap (fun tu =>
    [StreamEvent.tool_start tu.name, StreamEvent.tool_end tu.name (exec tu.name tu.input)])

/-- The `toolCalls.push(...)` records of one round (agent.ts lines 399-403). -/
def toolCallRecords (exec : String → JValue → JValue) (tus : List ToolUseBlock) :
    List ToolCallResult :=
  tus.map (fun tu => { name := tu.name, input := tu.input, output := exec tu.name tu.input })

/-- The `toolResults.push(...)` entries of one round (agent.ts lines
407-411): `(tool_use_id, result)` per block. -/
def toolResultEntries (exec : String → JValue → JValue) (tus : List ToolUseBlock) :
    List (String × JValue) :=
  tus.map (fun tu => (tu.id, exec tu.name tu.input))

/-- The agent loop of `chatStreamWithClaude` (agent.ts lines 346-436), as a
function from the round script to the emitted events and the Conversation
entries appended. `exec` abstracts `this.executeTool`; `fuel` is
`maxTurns - turn`; `acc` is the `toolCalls` accumulator. Per iteration:
stream the round's text deltas; on a thrown round emit a terminal `error`;
with no `tool_use` blocks emit `done`; otherwise emit the start/end pair
and append the result for each block in order, then loop — unless
`stop_reason === "end_turn"`, which ends with `done`. Fuel exhaustion (the
`while` guard) ends with `done`. -/
def chatStreamWithClaude (exec : String → JValue → JValue) (script : ℕ → ClaudeRound) :
    ℕ → ℕ → List ToolCallResult → List StreamEvent × List HistoryItem
  | _, 0, acc => ([StreamEvent.done acc], [])
  | turn, fuel + 1, acc =>
    match script turn with
    | ClaudeRound.throws textDeltas errMsg =>
      (textDeltas.map StreamEvent.text ++ [StreamEvent.error errMsg], [])
    | ClaudeRound.responds msg =>
      let textEvents := msg.textDeltas.map StreamEvent.text
      if msg.toolUses.isEmpty then
        (textEvents ++ [StreamEvent.done acc], [HistoryItem.assistant msg])
      else
        let pairEvents := toolPairEvents exec msg.toolUses
        let acc' := acc ++ toolCallRecords exec msg.toolUses
        let hist := [HistoryItem.assistant msg,
          HistoryItem.toolResults (toolResultEntries exec msg.toolUses)]
        if msg.stopEndTurn then
          (textEvents ++ pairEvents ++ [StreamEvent.done acc'], hist)
        else
          let rest := chatStreamWithClaude exec script (turn + 1) fuel acc'
          (textEvents ++ pairEvents ++ rest.1, hist ++ rest.2)

/-- One delta item of the OpenAI stream: a `delta.content` fragment or one
element of `delta.tool_calls`. Absent `id` / `function.name` /
`function.arguments` fields are the empty string, matching the truthiness
checks of the accumulator. -/
inductive OpenAIDelta where
  | content (s : String)
  | toolCallDelta (index : ℕ) (id : String) (name : String) (args : String)

/-- One entry of the `pendingToolCalls` map (agent.ts line 476). -/
structure PendingToolCall where
  id : String
  name : String
  args : String

/-- The three `if (tc...)` updates applied to a pending entry (agent.ts
lines 494-496): overwrite `id` / `name` when truthy, append `arguments`. -/
def applyToolCallDelta (p : PendingToolCall) (id name args : String) : PendingToolCall :=
  { id := if id = "" then p.id else id,
    name := if name = "" then p.name else name,
    args := if args = "" then p.args else p.args ++ args }

/-- One step of the tool-call accumulation (agent.ts lines 488-497): create
the entry on first sight of an index (insertion order — the map iterates in
insertion order later), then apply the updates. -/
def processToolCallDelta (m : List (ℕ × PendingToolCall)) (idx : ℕ)
    (id name args : String) : List (ℕ × PendingToolCall) :=
  let m' := if m.any (fun e => e.1 = idx) then m
            else m ++ [(idx, { id := id, name := name, args := "" })]
  m'.map (fun e => if e.1 = idx then (e.1, applyToolCallDelta e.2 id name args) else e)

/-- Folding a round's delta items through the accumulator (the
`for await (const chunk of stream)` loop, agent.ts lines 478-499). -/
def accumulateToolCalls : List OpenAIDelta → List (ℕ × PendingToolCall) →
    List (ℕ × PendingToolCall)
  | [], m => m
  | OpenAIDelta.content _ :: rest, m => accumulateToolCalls rest m
  | OpenAIDelta.toolCallDelta idx id name args :: rest, m =>
    accumulateToolCalls rest (processToolCallDelta m idx id name args)

/-- The pending tool calls of a round, in insertion (request) order. -/
def pendingOf (items : List OpenAIDelta) : List PendingToolCall :=
  (accumulateToolCalls items []).map Prod.snd

/-- The `delta.content` fragments of a round, in stream order. -/
def textsOf (items : List OpenAIDelta) : List String :=
  items.filterMap (fun i =>
    match i with
    | OpenAIDelta.content s => some s
    | _ => none)

/-- What round `t` of the OpenAI conversation does: the stream throws (after
some delta items) or completes. -/
inductive OpenAIRound where
  | throws (items : List OpenAIDelta) (errMsg : String)
  | completes (items : List OpenAIDelta)

/-- `JSON.parse(tc.arguments)` with the `catch { functionArgs = {} }`
fallback (agent.ts lines 519-524); the JSON parser itself is external. -/
def resolveArgs (parseJson : String → Option JValue) (s : String) : JValue :=
  (parseJson s).getD (JValue.obj [])

/-- The events of the `for (const [, tc] of pendingToolCalls)` loop
(agent.ts lines 516-541): adjacent `tool_start` / `tool_end` pairs in
insertion order, executing each call on its parsed (or defaulted)
arguments. -/
def openaiToolPairEvents (exec : String → JValue → JValue)
    (parseJson : String → Option JValue) (pending : List PendingToolCall) :
    List StreamEvent :=
  pending.flatMap (fun tc =>
    [StreamEvent.tool_start tc.name,
     StreamEvent.tool_end tc.name (exec tc.name (resolveArgs parseJson tc.args))])

/-- The `toolCalls.push(...)` records of one OpenAI round (agent.ts lines
528-532). -/
def openaiToolCallRecords (exec : String → JValue → JValue)
    (parseJson : String → Option JValue) (pending : List PendingToolCall) :
    List ToolCallResult :=
  pending.map (fun tc =>
    { name := tc.name, input := resolveArgs parseJson tc.args,
      output := exec tc.name (resolveArgs parseJson tc.args) })

/-- The agent loop of `chatStreamWithOpenAI` (agent.ts lines 462-563). Per
iteration: emit the round's text fragments as they stream; a thrown round
ends with a terminal `error`; with no accumulated tool calls the round ends
with `done`; otherwise emit each call's start/end pair in insertion order
and always loop (`continue`); fuel exhaustion ends with `done`. -/
def chatStreamWithOpenAI (exec : String → JValue → JValue)
    (parseJson : String → Option JValue) (script : ℕ → OpenAIRound) :
    ℕ → ℕ → List ToolCallResult → List StreamEvent
  | _, 0, acc => [StreamEvent.done acc]
  | turn, fuel + 1, acc =>
    match script turn with
    | OpenAIRound.throws items errMsg =>
      (textsOf items).map StreamEvent.text ++ [StreamEvent.error errMsg]
    | OpenAIRound.completes items =>
      let textEvents := (textsOf items).map StreamEvent.text
      let pending := pendingOf items
      if pending.isEmpty then
        textEvents ++ [StreamEvent.done acc]
      else
        textEvents ++ openaiToolPairEvents exec parseJson pending ++
          chatStreamWithOpenAI exec parseJson script (turn + 1) fuel
            (acc ++ openaiToolCallRecords exec parseJson pending)

/-- `AgentResponse` (agent.ts lines 53-60); an absent `needsContinue` is
`false`. -/
structure AgentResponse where
  text : String
  toolCalls : List ToolCallResult
  needsContinue : Bool

/-- `OpenEchoAgent.handleError` (agent.ts lines 781-796). -/
def handleError (provider : String) (errorMessage : String)
    (toolCalls : List ToolCallResult) : AgentResponse :=
  if strIncludes errorMessage "authentication" || strIncludes errorMessage "api_key" ||
      strIncludes errorMessage "401" then
    { text := "错误: " ++ provider ++ " API Key 无效或未配置。请检查 ~/.openecho/config.json 配置。",
      toolCalls := [], needsContinue := false }
  else
    { text := "与 AI 通信时发生错误: " ++ errorMessage,
      toolCalls := toolCalls, needsContinue := false }

/-- The turn-limit notice text (agent.ts lines 665-669). -/
def turnLimitText : String := "对话轮次已达上限，请重新开始对话。"

/-- The agent loop of the non-streaming `chatWithClaude` (agent.ts lines
583-669). Rounds reuse `ClaudeRound`, with `textDeltas` as the response's
text blocks (joined with newlines into the returned text). Fuel exhaustion
returns the turn-limit notice with `needsContinue: true`. -/
def chatWithClaude (exec : String → JValue → JValue) (provider : String)
    (script : ℕ → ClaudeRound) : ℕ → ℕ → List ToolCallResult → AgentResponse
  | _, 0, acc => { text := turnLimitText, toolCalls := acc, needsContinue := true }
  | turn, fuel + 1, acc =>
    match script turn with
    | ClaudeRound.throws _ errMsg => handleError provider errMsg acc
    | ClaudeRound.responds msg =>
      let textResponse := String.intercalate "\n" msg.textDeltas
      if msg.toolUses.isEmpty then
        { text := textResponse, toolCalls := acc, needsContinue := false }
      else
        let acc' := acc ++ toolCallRecords exec msg.toolUses
        if msg.stopEndTurn then
          { text := textResponse, toolCalls := acc', needsContinue := false }
        else
          chatWithClaude exec provider script (turn + 1) fuel acc'

/-- The `maxTurns` resolution of the `OpenEchoAgent` constructor
(agent.ts line 125): `config.maxTurns || 10` — JS `||` also falls back on
the falsy 0. -/
def resolveMaxTurns (configMaxTurns : Option ℕ) : ℕ :=
  match configMaxTurns with
  | none => 10
  | some n => if n = 0 then 10 else n

-- ============================================================================
-- Specification-side predicates for the loop claims
-- ============================================================================

/-- The observable event pattern of claim C1: zero or more text events
interleaved with adjacent same-name `(tool_start, tool_end)` pairs, closed
by exactly one terminal event (`done` or `error`), with nothing after it. -/
inductive EventSeqOK : List StreamEvent → Prop where
  | done (toolCalls : List ToolCallResult) : EventSeqOK [StreamEvent.done toolCalls]
  | error (msg : String) : EventSeqOK [StreamEvent.error msg]
  | text (s : String) (rest : List StreamEvent) :
      EventSeqOK rest → EventSeqOK (StreamEvent.text s :: rest)
  | pair (name : String) (result : JValue) (rest : List StreamEvent) :
      EventSeqOK rest →
      EventSeqOK (StreamEvent.tool_start name :: StreamEvent.tool_end name result :: rest)

/-- Whether an event is a `tool_start` or `tool_end`. -/
def isToolEvent : StreamEvent → Bool
  | StreamEvent.tool_start _ => true
  | StreamEvent.tool_end _ _ => true
  | _ => false

/-- Whether an event is a `tool_end`. -/
def isToolEndEvent : StreamEvent → Bool
  | StreamEvent.tool_end _ _ => true
  | _ => false

/-- Whether an event is a `tool_start`. -/
def isToolStartEvent : StreamEvent → Bool
  | StreamEvent.tool_start _ => true
  | _ => false

/-- Whether an event is an `error`. -/
def isErrorEvent : StreamEvent → Bool
  | StreamEvent.error _ => true
  | _ => false

/-- The tool-use blocks the Claude loop executes, in request order. -/
def claudeExecutedUses (script : ℕ → ClaudeRound) : ℕ → ℕ → List ToolUseBlock
  | _, 0 => []
  | turn, fuel + 1 =>
    match script turn with
    | ClaudeRound.throws _ _ => []
    | ClaudeRound.responds msg =>
      if msg.toolUses.isEmpty then []
      else if msg.stopEndTurn then msg.toolUses
      else msg.toolUses ++ claudeExecutedUses script (turn + 1) fuel

/-- The Conversation entries the Claude loop appends, in order: per round
the assistant message and, for tool rounds, the paired `(tool_use_id,
result)` entries produced by the executor. -/
def claudeHistory (exec : String → JValue → JValue) (script : ℕ → ClaudeRound) :
    ℕ → ℕ → List HistoryItem
  | _, 0 => []
  | turn, fuel + 1 =>
    match script turn with
    | ClaudeRound.throws _ _ => []
    | ClaudeRound.responds msg =>
      if msg.toolUses.isEmpty then [HistoryItem.assistant msg]
      else
        [HistoryItem.assistant msg,
         HistoryItem.toolResults (toolResultEntries exec msg.toolUses)] ++
          (if msg.stopEndTurn then [] else claudeHistory exec script (turn + 1) fuel)

/-- The pending tool calls the OpenAI loop executes, in request order. -/
def openaiExecutedCalls (script : ℕ → OpenAIRound) : ℕ → ℕ → List PendingToolCall
  | _, 0 => []
  | turn, fuel + 1 =>
    match script turn with
    | OpenAIRound.throws _ _ => []
    | OpenAIRound.completes items =>
      let pending := pendingOf items
      if pending.isEmpty then []
      else pending ++ openaiExecutedCalls script (turn + 1) fuel

/-- The tool-use blocks a round's response contains. -/
def roundUses : ClaudeRound → List ToolUseBlock
  | ClaudeRound.throws _ _ => []
  | ClaudeRound.responds msg => msg.toolUses

end OpenEcho

namespace OpenEcho

-- ============================================================================
-- Theorems: C6 (cooldown gates), C10 (heartbeat interval clamp)
-- ============================================================================

/-- C6: `canPost()` returns true iff no prior post is recorded or at least
30 minutes have elapsed since it; `canComment()` likewise with a 20-second
threshold; and immediately after any `recordPost()` the gate is closed and
reopens exactly when 30 minutes have elapsed. -/
theorem canPost_canComment_spec (s : HeartbeatState) (now later : Millis) :
    (canPost s now = true ↔
      (s.lastPost = none ∨ ∃ t, s.lastPost = some t ∧ now - t ≥ 30 * 60 * 1000)) ∧
    (canComment s now = true ↔
      (s.lastComment = none ∨ ∃ t, s.lastComment = some t ∧ now - t ≥ 20 * 1000)) ∧
    canPost (recordPost s now) now = false ∧
    (canPost (recordPost s now) later = true ↔ later - now ≥ 30 * 60 * 1000) := by
  refine ⟨?_, ?_, ?_, ?_⟩
  · cases h : s.lastPost with
    | none => simp [canPost, h]
    | some t => simp [canPost, h]
  · cases h : s.lastComment with
    | none => simp [canComment, h]
    | some t => simp [canComment, h]
  · simp [canPost, recordPost]
  · simp [canPost, recordPost]

/-- C10: `shouldRunHeartbeat(i)` returns true iff no check is recorded or the
elapsed time is at least `max i MIN_HEARTBEAT_INTERVAL_MS`; in particular it
never returns true within one hour of the last recorded check, however small
the requested interval. -/
theorem shouldRunHeartbeat_spec (s : HeartbeatState) (now : Millis) (i : Millis) :
    (shouldRunHeartbeat s now i = true ↔
      (s.lastCheck = none ∨
        ∃ t, s.lastCheck = some t ∧ now - t ≥ max i MIN_HEARTBEAT_INTERVAL_MS)) ∧
    (∀ t, s.lastCheck = some t → now - t < 1 * 60 * 60 * 1000 →
      shouldRunHeartbeat s now i = false) := by
  constructor
  · cases h : s.lastCheck with
    | none => simp [shouldRunHeartbeat, h]
    | some t => simp [shouldRunHeartbeat, h]
  · intro t ht hlt
    have hmin : (1 * 60 * 60 * 1000 : Millis) ≤ max i MIN_HEARTBEAT_INTERVAL_MS := by
      have h := le_max_right i MIN_HEARTBEAT_INTERVAL_MS
      simp only [MIN_HEARTBEAT_INTERVAL_MS] at h
      exact le_trans (by norm_num) h
    simp only [shouldRunHeartbeat, ht, decide_eq_false_iff_not, not_le]
    exact lt_of_lt_of_le hlt hmin

/-- Closed instance for C10: five milliseconds after a recorded check, even a
requested interval of 5 ms does not reopen the heartbeat gate. -/
theorem shouldRunHeartbeat_spec_witness :
    shouldRunHeartbeat { lastCheck := some 0, lastPost := none, lastComment := none } 5 5 = false :=
  (shouldRunHeartbeat_spec { lastCheck := some 0, lastPost := none, lastComment := none } 5 5).2
    0 rfl (by norm_num)

-- ============================================================================
-- Theorems: C7 (sentiment), C8 (anomaly), C2 (transport retry)
-- ============================================================================

/-- Bridge between the float comparison `count > length * 0.6` of the source
and the exact statement "more than 60%". -/
theorem countGtSixtyPercent_iff (c n : ℕ) :
    ((c : ℚ) > (n : ℚ) * 0.6) ↔ 5 * c > 3 * n := by
  rw [show (0.6 : ℚ) = 3 / 5 by norm_num]
  constructor
  · intro h
    have h5 : (3 * n : ℚ) < 5 * c := by linarith
    exact_mod_cast h5
  · intro h
    have h5 : (3 * n : ℚ) < 5 * c := by exact_mod_cast h
    linarith

/-- In any detail list, the positive and negative counts together never
exceed the length. -/
theorem posneg_count_le (details : List SentimentDetail) :
    details.countP (fun d => d.sentiment == ItemSentiment.positive) +
      details.countP (fun d => d.sentiment == ItemSentiment.negative) ≤ details.length := by
  induction details with
  | nil => simp
  | cons d rest ih =>
    rw [List.countP_cons, List.countP_cons, List.length_cons]
    cases h : d.sentiment <;> simp [h] <;> omega

/-- C7: per item the sentiment ratio is `upvotes / (upvotes + downvotes)`
(0.5 when there are no votes); an item is positive iff its ratio exceeds
3/5, negative iff below 2/5, neutral otherwise; and the aggregate is
positive (resp. negative) iff strictly more than 60% of the items classify
that way, otherwise mixed iff both a positive and a negative item exist,
otherwise neutral. -/
theorem analyze_sentiment_spec (post : Post) (posts : List Post) :
    (post.upvotes + post.downvotes ≠ 0 →
      (sentimentDetail post).ratio =
        (post.upvotes : ℚ) / ((post.upvotes : ℚ) + (post.downvotes : ℚ))) ∧
    (post.upvotes = 0 ∧ post.downvotes = 0 → (sentimentDetail post).ratio = 1 / 2) ∧
    ((sentimentDetail post).sentiment = ItemSentiment.positive ↔
      (sentimentDetail post).ratio > 3 / 5) ∧
    ((sentimentDetail post).sentiment = ItemSentiment.negative ↔
      (sentimentDetail post).ratio < 2 / 5) ∧
    ((sentimentDetail post).sentiment = ItemSentiment.neutral ↔
      (2 / 5 ≤ (sentimentDetail post).ratio ∧ (sentimentDetail post).ratio ≤ 3 / 5)) ∧
    (∀ a, analyze_sentiment posts = Except.ok a →
      a.details = posts.map sentimentDetail ∧
      (a.overall = OverallSentiment.positive ↔
        5 * a.details.countP (fun d => d.sentiment == ItemSentiment.positive) >
          3 * a.details.length) ∧
      (a.overall = OverallSentiment.negative ↔
        5 * a.details.countP (fun d => d.sentiment == ItemSentiment.negative) >
          3 * a.details.length) ∧
      (a.overall = OverallSentiment.mixed ↔
        (¬ 5 * a.details.countP (fun d => d.sentiment == ItemSentiment.positive) >
            3 * a.details.length ∧
         ¬ 5 * a.details.countP (fun d => d.sentiment == ItemSentiment.negative) >
            3 * a.details.length ∧
         1 ≤ a.details.countP (fun d => d.sentiment == ItemSentiment.positive) ∧
         1 ≤ a.details.countP (fun d => d.sentiment == ItemSentiment.negative)))) := by
  have hratio6 : (0.6 : ℚ) = 3 / 5 := by norm_num
  have hratio4 : (0.4 : ℚ) = 2 / 5 := by norm_num
  refine ⟨?_, ?_, ?_, ?_, ?_, ?_⟩
  · intro h
    have hpos : (0 : ℚ) < (post.upvotes : ℚ) + (post.downvotes : ℚ) := by
      have : 0 < post.upvotes + post.downvotes := Nat.pos_of_ne_zero h
      exact_mod_cast this
    simp only [sentimentDetail, if_pos hpos]
  · rintro ⟨h1, h2⟩
    simp only [sentimentDetail, h1, h2]
    norm_num
  · simp only [sentimentDetail, hratio6, hratio4]
    split_ifs with h1 h2 <;> simp_all <;> linarith
  · simp only [sentimentDetail, hratio6, hratio4]
    split_ifs with h1 h2 <;> simp_all <;> linarith
  · simp only [sentimentDetail, hratio6, hratio4]
    split_ifs with h1 h2 <;> simp_all <;> constructor <;> intro <;> linarith
  · intro a h
    by_cases hne : posts.length = 0
    · simp [analyze_sentiment, hne] at h
    simp only [analyze_sentiment, if_neg hne] at h
    obtain rfl : a = _ := (Except.ok.injEq _ _).mp h.symm
    refine ⟨rfl, ?_⟩
    set details := posts.map sentimentDetail with hdet
    set pos := details.countP (fun d => d.sentiment == ItemSentiment.positive) with hpos
    set neg := details.countP (fun d => d.sentiment == ItemSentiment.negative) with hneg
    have hlen : details.length = posts.length := List.length_map _ _
    have hsum : pos + neg ≤ details.length := posneg_count_le details
    have hkeyP := countGtSixtyPercent_iff pos details.length
    have hkeyN := countGtSixtyPercent_iff neg details.length
    refine ⟨?_, ?_, ?_⟩
    · split_ifs with h1 h2 h3 <;> simp_all <;> omega
    · split_ifs with h1 h2 h3 <;> simp_all <;> omega
    · split_ifs with h1 h2 h3 <;> simp_all <;> omega

/-- Closed instance for C7 (spec scenario P6): items with vote splits 8/2,
2/8 and 5/5 classify positive, negative and neutral respectively. -/
theorem analyze_sentiment_spec_witness :
    (sentimentDetail ⟨"a", "a", 8, 2, 0⟩).sentiment = ItemSentiment.positive ∧
    (sentimentDetail ⟨"b", "b", 2, 8, 0⟩).sentiment = ItemSentiment.negative ∧
    (sentimentDetail ⟨"c", "c", 5, 5, 0⟩).sentiment = ItemSentiment.neutral := by
  refine ⟨?_, ?_, ?_⟩
  · exact (analyze_sentiment_spec ⟨"a", "a", 8, 2, 0⟩ []).2.2.1.mpr
      (by norm_num [sentimentDetail])
  · exact (analyze_sentiment_spec ⟨"b", "b", 2, 8, 0⟩ []).2.2.2.1.mpr
      (by norm_num [sentimentDetail])
  · exact (analyze_sentiment_spec ⟨"c", "c", 5, 5, 0⟩ []).2.2.2.2.1.mpr
      (by norm_num [sentimentDetail])

/-- Counterexample to C8 as stated: in the batch `[p1c8, p2c8]`, post `p1c8`
has exactly 10 total votes with a downvote ratio of 60%, so the claim's
"downvote-ratio > 50% with ≥10 total votes" condition flags it, yet
`analyze_anomaly` (which requires strictly more than 10 total votes)
returns no anomalies at all. -/
theorem analyze_anomaly_claim_counterexample :
    claimFlaggedC8 (avgUpvotesOf [p1c8, p2c8]) (avgDownvotesOf [p1c8, p2c8])
      (avgCommentsOf [p1c8, p2c8]) p1c8 = true ∧
    analyze_anomaly [p1c8, p2c8] = [] := by
  have hu : avgUpvotesOf [p1c8, p2c8] = 22 := by
    simp [avgUpvotesOf, p1c8, p2c8]
    norm_num
  have hd : avgDownvotesOf [p1c8, p2c8] = 8 := by
    simp [avgDownvotesOf, p1c8, p2c8]
    norm_num
  have hc : avgCommentsOf [p1c8, p2c8] = 0 := by
    simp [avgCommentsOf, p1c8, p2c8]
  constructor
  · rw [hu, hd, hc]
    simp only [claimFlaggedC8, p1c8, Bool.or_eq_true, decide_eq_true_eq]
    norm_num
  · have h1 : anomalyFlagged 22 8 0 p1c8 = false := by
      simp only [anomalyFlagged, p1c8, Bool.or_eq_false_iff, decide_eq_false_iff_not]
      norm_num
    have h2 : anomalyFlagged 22 8 0 p2c8 = false := by
      simp only [anomalyFlagged, p2c8, Bool.or_eq_false_iff, decide_eq_false_iff_not]
      norm_num
    simp [analyze_anomaly, unusualPostsOf, hu, hd, hc, h1, h2]

/-- C8 (amended): a post is flagged iff upvotes exceed 3× the batch mean, or
downvotes exceed 3× the batch mean and the absolute floor 5, or the
downvote ratio exceeds 50% with strictly more than 10 total votes, or
comments exceed 4× the batch mean; each matched condition adds its severity
contribution, and the returned list is the flagged posts sorted descending
by severity score, truncated to the top 10. -/
theorem analyze_anomaly_spec (posts : List Post) :
    (∀ p, anomalyFlagged (avgUpvotesOf posts) (avgDownvotesOf posts) (avgCommentsOf posts) p
        = true ↔
      ((p.upvotes : ℚ) > avgUpvotesOf posts * 3 ∨
       ((p.downvotes : ℚ) > avgDownvotesOf posts * 3 ∧ p.downvotes > 5) ∨
       (p.upvotes + p.downvotes > 10 ∧
         (p.downvotes : ℚ) / ((p.upvotes : ℚ) + (p.downvotes : ℚ)) > 1 / 2) ∨
       (p.comment_count : ℚ) > avgCommentsOf posts * 4)) ∧
    List.Pairwise (fun a b : UnusualPost => b.score ≤ a.score) (analyze_anomaly posts) ∧
    (analyze_anomaly posts).length ≤ 10 ∧
    analyze_anomaly posts =
      ((unusualPostsOf posts).mergeSort (fun a b => b.score ≤ a.score)).take 10 ∧
    (∀ u ∈ analyze_anomaly posts, ∃ p ∈ posts,
      anomalyFlagged (avgUpvotesOf posts) (avgDownvotesOf posts) (avgCommentsOf posts) p
        = true ∧
      u = { post_id := p.id, title := p.title,
            score := anomalyScore (avgUpvotesOf posts) (avgDownvotesOf posts)
              (avgCommentsOf posts) p }) ∧
    (∀ p ∈ posts,
      anomalyFlagged (avgUpvotesOf posts) (avgDownvotesOf posts) (avgCommentsOf posts) p
        = true →
      ({ post_id := p.id, title := p.title,
         score := anomalyScore (avgUpvotesOf posts) (avgDownvotesOf posts)
           (avgCommentsOf posts) p } : UnusualPost) ∈ unusualPostsOf posts) := by
  refine ⟨?_, ?_, ?_, rfl, ?_, ?_⟩
  · intro p
    simp only [anomalyFlagged, Bool.or_eq_true, decide_eq_true_eq]
    norm_num
    tauto
  · have hs : List.Pairwise (fun a b : UnusualPost => decide (b.score ≤ a.score) = true)
        ((unusualPostsOf posts).mergeSort (fun a b => b.score ≤ a.score)) := by
      apply List.sorted_mergeSort
      · intro a b c hab hbc
        simp only [decide_eq_true_eq] at *
        omega
      · intro a b
        simp only [Bool.or_eq_true, decide_eq_true_eq]
        omega
    have := hs.sublist (List.take_sublist 10 _)
    exact this.imp (fun h => of_decide_eq_true h)
  · exact le_trans (List.length_take_le 10 _) (le_refl _)
  · intro u hu
    have hmem : u ∈ (unusualPostsOf posts).mergeSort (fun a b => b.score ≤ a.score) :=
      List.mem_of_mem_take hu
    have hmem2 : u ∈ unusualPostsOf posts := List.mem_mergeSort.mp hmem
    simp only [unusualPostsOf, List.mem_filterMap] at hmem2
    obtain ⟨p, hp, hpe⟩ := hmem2
    refine ⟨p, hp, ?_, ?_⟩
    · by_contra hflag
      simp only [Bool.not_eq_true] at hflag
      rw [hflag] at hpe
      simp at hpe
    · by_cases hflag : anomalyFlagged (avgUpvotesOf posts) (avgDownvotesOf posts)
          (avgCommentsOf posts) p = true
      · rw [if_pos hflag] at hpe
        exact (Option.some.injEq _ _).mp hpe |>.symm
      · simp only [Bool.not_eq_true] at hflag
        rw [hflag] at hpe
        simp at hpe
  · intro p hp hflag
    simp only [unusualPostsOf, List.mem_filterMap]
    exact ⟨p, hp, by rw [if_pos hflag]⟩

/-- Closed instance for C8's amended theorem: the (amended) flag condition
holds for `qc8` in its single-post batch, and by the theorem its entry is in
the pre-truncation anomaly list. -/
theorem analyze_anomaly_spec_witness :
    ({ post_id := qc8.id, title := qc8.title,
       score := anomalyScore (avgUpvotesOf [qc8]) (avgDownvotesOf [qc8])
         (avgCommentsOf [qc8]) qc8 } : UnusualPost) ∈ unusualPostsOf [qc8] := by
  have hu : avgUpvotesOf [qc8] = 0 := by
    simp [avgUpvotesOf, qc8]
  have hd : avgDownvotesOf [qc8] = 20 := by
    simp [avgDownvotesOf, qc8]
  have hc : avgCommentsOf [qc8] = 0 := by
    simp [avgCommentsOf, qc8]
  refine (analyze_anomaly_spec [qc8]).2.2.2.2.2 qc8 (List.mem_singleton.mpr rfl) ?_
  rw [hu, hd, hc]
  simp only [anomalyFlagged, qc8, Bool.or_eq_true, decide_eq_true_eq]
  norm_num

/-- The network-failure error string is never empty, so the final
`请求失败` default of `allFailedResult` is not taken after a network error. -/
theorem networkErrorString_ne_empty (msg : String) : ("网络请求失败: " ++ msg) ≠ "" := by
  intro h
  have h2 := congrArg String.length h
  rw [String.length_append] at h2
  have h3 : "网络请求失败: ".length = 8 := rfl
  have h4 : "".length = 0 := rfl
  omega

/-- A run of the retry loop in which every reachable attempt is retryable
(5xx or network failure) uses all its fuel: one attempt per unit of fuel, a
linear-backoff delay after each non-final attempt, and a terminal failure
carrying the last attempt's error. -/
theorem apiRequestGo_retryable_run (outcomes : ℕ → AttemptOutcome) (maxRetries : ℕ) :
    ∀ (fuel attempt : ℕ) (lastError : String) (lastStatus : ℕ),
      1 ≤ fuel →
      (∀ a, attempt ≤ a → a < attempt + fuel → retryableOutcome (outcomes a)) →
      (apiRequestGo outcomes maxRetries fuel attempt lastError lastStatus).attempts = fuel ∧
      (apiRequestGo outcomes maxRetries fuel attempt lastError lastStatus).delays =
        (List.range' attempt (fuel - 1)).map (fun a => RETRY_DELAY_BASE_MS * a) ∧
      (apiRequestGo outcomes maxRetries fuel attempt lastError lastStatus).result.success
        = false ∧
      (apiRequestGo outcomes maxRetries fuel attempt lastError lastStatus).result.error =
        some (terminalErrorOf (outcomes (attempt + fuel - 1))) := by
  intro fuel
  induction fuel with
  | zero => intro attempt lastError lastStatus h; omega
  | succ n ih =>
    intro attempt lastError lastStatus _ hret
    have hthis : retryableOutcome (outcomes attempt) := hret attempt le_rfl (by omega)
    cases houtcome : outcomes attempt with
    | response status body =>
      rw [houtcome] at hthis
      obtain ⟨h5, h5b⟩ := hthis
      have hok : ¬(200 ≤ status ∧ status < 300) := by omega
      have h429 : ¬(status = 429) := by omega
      have hclient : ¬(400 ≤ status ∧ status < 500) := by omega
      by_cases hn : n = 0
      · subst hn
        simp only [apiRequestGo, houtcome, if_neg hok, if_neg h429, if_neg hclient, if_pos rfl]
        refine ⟨rfl, rfl, rfl, ?_⟩
        simp [terminalErrorOf, houtcome]
      · have ihm := ih (attempt + 1) (body.error.getD ("服务器错误: HTTP " ++ toString status))
          status (by omega) (by intro a ha1 ha2; exact hret a (by omega) (by omega))
        have hr : List.range' attempt (n + 1 - 1) =
            attempt :: List.range' (attempt + 1) (n - 1) := by
          rw [show n + 1 - 1 = (n - 1) + 1 by omega]
          exact List.range'_succ ..
        simp only [apiRequestGo, houtcome, if_neg hok, if_neg h429, if_neg hclient, if_neg hn]
        refine ⟨?_, ?_, ?_, ?_⟩
        · simp [ihm.1]
        · rw [hr, List.map_cons, ihm.2.1]
        · exact ihm.2.2.1
        · rw [ihm.2.2.2, show attempt + 1 + n - 1 = attempt + (n + 1) - 1 from by omega]
    | networkFailure msg =>
      by_cases hn : n = 0
      · subst hn
        simp only [apiRequestGo, houtcome, if_pos rfl]
        refine ⟨rfl, rfl, rfl, ?_⟩
        simp only [allFailedResult, if_neg (networkErrorString_ne_empty msg)]
        simp [terminalErrorOf, houtcome]
      · have ihm := ih (attempt + 1) ("网络请求失败: " ++ msg) lastStatus (by omega)
          (by intro a ha1 ha2; exact hret a (by omega) (by omega))
        have hr : List.range' attempt (n + 1 - 1) =
            attempt :: List.range' (attempt + 1) (n - 1) := by
          rw [show n + 1 - 1 = (n - 1) + 1 by omega]
          exact List.range'_succ ..
        simp only [apiRequestGo, houtcome, if_neg hn]
        refine ⟨?_, ?_, ?_, ?_⟩
        · simp [ihm.1]
        · rw [hr, List.map_cons, ihm.2.1]
        · exact ihm.2.2.1
        · rw [ihm.2.2.2, show attempt + 1 + n - 1 = attempt + (n + 1) - 1 from by omega]

/-- A run of the retry loop that hits HTTP 429 on attempt `attempt + j`
(after `j` retryable attempts) stops there: `j + 1` attempts in total and a
terminal rate-limit result carrying the body's advisory fields. -/
theorem apiRequestGo_rateLimited (outcomes : ℕ → AttemptOutcome) (maxRetries : ℕ) :
    ∀ (j fuel attempt : ℕ) (lastError : String) (lastStatus : ℕ) (body : ResponseBody),
      j < fuel →
      (∀ a, attempt ≤ a → a < attempt + j → retryableOutcome (outcomes a)) →
      outcomes (attempt + j) = AttemptOutcome.response 429 body →
      (apiRequestGo outcomes maxRetries fuel attempt lastError lastStatus).attempts = j + 1 ∧
      (apiRequestGo outcomes maxRetries fuel attempt lastError lastStatus).delays =
        (List.range' attempt j).map (fun a => RETRY_DELAY_BASE_MS * a) ∧
      (apiRequestGo outcomes maxRetries fuel attempt lastError lastStatus).result =
        { success := false,
          error := some (body.error.getD "请求过于频繁，请稍后再试"),
          hint := body.hint,
          rateLimit := some { retryAfterSeconds := body.retry_after_seconds,
                              retryAfterMinutes := body.retry_after_minutes,
                              dailyRemaining := body.daily_remaining },
          debugStatus := some 429, debugRetries := attempt + j } := by
  intro j
  induction j with
  | zero =>
    intro fuel attempt lastError lastStatus body hlt hret h429
    rw [Nat.add_zero] at h429
    cases fuel with
    | zero => omega
    | succ n =>
      have hok : ¬(200 ≤ 429 ∧ 429 < 300) := by omega
      simp only [apiRequestGo, h429, if_neg hok, if_pos rfl]
      exact ⟨rfl, rfl, rfl⟩
  | succ i ih =>
    intro fuel attempt lastError lastStatus body hlt hret h429
    cases fuel with
    | zero => omega
    | succ n =>
      have hnz : n ≠ 0 := by omega
      have hthis : retryableOutcome (outcomes attempt) := hret attempt le_rfl (by omega)
      have hidx : outcomes ((attempt + 1) + i) = AttemptOutcome.response 429 body := by
        rw [show (attempt + 1) + i = attempt + (i + 1) by omega]
        exact h429
      cases houtcome : outcomes attempt with
      | response status bdy =>
        rw [houtcome] at hthis
        obtain ⟨h5, h5b⟩ := hthis
        have hok : ¬(200 ≤ status ∧ status < 300) := by omega
        have h429n : ¬(status = 429) := by omega
        have hclient : ¬(400 ≤ status ∧ status < 500) := by omega
        have ihm := ih n (attempt + 1) (bdy.error.getD ("服务器错误: HTTP " ++ toString status))
          status body (by omega) (by intro a ha1 ha2; exact hret a (by omega) (by omega)) hidx
        simp only [apiRequestGo, houtcome, if_neg hok, if_neg h429n, if_neg hclient,
          if_neg hnz]
        refine ⟨?_, ?_, ?_⟩
        · simp [ihm.1]
        · rw [List.range'_succ, List.map_cons, ihm.2.1]
        · rw [ihm.2.2]
          congr 1
          omega
      | networkFailure msg =>
        have ihm := ih n (attempt + 1) ("网络请求失败: " ++ msg) lastStatus body (by omega)
          (by intro a ha1 ha2; exact hret a (by omega) (by omega)) hidx
        simp only [apiRequestGo, houtcome, if_neg hnz]
        refine ⟨?_, ?_, ?_⟩
        · simp [ihm.1]
        · rw [List.range'_succ, List.map_cons, ihm.2.1]
        · rw [ihm.2.2]
          congr 1
          omega

/-- C2: with a resolvable credential, if every attempt fails with a 5xx
status or a network error then `apiRequest` makes exactly `maxRetries`
attempts, sleeping `attempt × RETRY_DELAY_BASE_MS` between consecutive
attempts, and returns the last attempt's error as a terminal failure; and
if attempt `k` is the first to answer — with HTTP 429 — then exactly `k`
attempts are made and the failure carries the body's
`retry_after_seconds` / `retry_after_minutes` / `daily_remaining`
advisories. -/
theorem apiRequest_spec (outcomes : ℕ → AttemptOutcome) (maxRetries k : ℕ)
    (body : ResponseBody) :
    (1 ≤ maxRetries →
      (∀ a, 1 ≤ a → a ≤ maxRetries → retryableOutcome (outcomes a)) →
      (apiRequest true outcomes maxRetries).attempts = maxRetries ∧
      (apiRequest true outcomes maxRetries).delays =
        (List.range' 1 (maxRetries - 1)).map (fun a => RETRY_DELAY_BASE_MS * a) ∧
      (apiRequest true outcomes maxRetries).result.success = false ∧
      (apiRequest true outcomes maxRetries).result.error =
        some (terminalErrorOf (outcomes maxRetries))) ∧
    (1 ≤ k → k ≤ maxRetries →
      (∀ a, 1 ≤ a → a < k → retryableOutcome (outcomes a)) →
      outcomes k = AttemptOutcome.response 429 body →
      (apiRequest true outcomes maxRetries).attempts = k ∧
      (apiRequest true outcomes maxRetries).delays =
        (List.range' 1 (k - 1)).map (fun a => RETRY_DELAY_BASE_MS * a) ∧
      (apiRequest true outcomes maxRetries).result.success = false ∧
      (apiRequest true outcomes maxRetries).result.rateLimit =
        some { retryAfterSeconds := body.retry_after_seconds,
               retryAfterMinutes := body.retry_after_minutes,
               dailyRemaining := body.daily_remaining }) := by
  constructor
  · intro h1 hall
    have h := apiRequestGo_retryable_run outcomes maxRetries maxRetries 1 "" 0 h1
      (by intro a ha1 ha2; exact hall a ha1 (by omega))
    have hidx : 1 + maxRetries - 1 = maxRetries := by omega
    rw [hidx] at h
    simpa [apiRequest] using h
  · intro hk1 hk2 hpre h429
    have hidx : 1 + (k - 1) = k := by omega
    have h := apiRequestGo_rateLimited outcomes maxRetries (k - 1) maxRetries 1 "" 0 body
      (by omega) (by intro a ha1 ha2; exact hpre a ha1 (by omega)) (by rw [hidx]; exact h429)
    refine ⟨?_, ?_, ?_, ?_⟩
    · rw [show k = (k - 1) + 1 by omega]
      simpa [apiRequest] using h.1
    · simpa [apiRequest] using h.2.1
    · have hdef : apiRequest true outcomes maxRetries =
        apiRequestGo outcomes maxRetries maxRetries 1 "" 0 := rfl
      rw [hdef, h.2.2]
    · have hdef : apiRequest true outcomes maxRetries =
        apiRequestGo outcomes maxRetries maxRetries 1 "" 0 := rfl
      rw [hdef, h.2.2]

/-- Closed instance for C2: an always-network-failing endpoint with three
allowed attempts gives 3 attempts, delays 1000 ms then 2000 ms, and the last
network error; a first-attempt 429 with advisory fields gives exactly one
attempt and surfaces those fields. -/
theorem apiRequest_spec_witness :
    (apiRequest true (fun _ => AttemptOutcome.networkFailure "conn reset") 3).attempts = 3 ∧
    (apiRequest true (fun _ => AttemptOutcome.networkFailure "conn reset") 3).delays =
      [1000, 2000] ∧
    (apiRequest true (fun _ => AttemptOutcome.networkFailure "conn reset") 3).result.error =
      some "网络请求失败: conn reset" ∧
    (apiRequest true
      (fun _ => AttemptOutcome.response 429 ⟨none, none, some 30, none, some 5⟩) 3).attempts
        = 1 ∧
    (apiRequest true
      (fun _ => AttemptOutcome.response 429 ⟨none, none, some 30, none, some 5⟩)
        3).result.rateLimit = some ⟨some 30, none, some 5⟩ := by
  have h1 := (apiRequest_spec (fun _ => AttemptOutcome.networkFailure "conn reset") 3 1
    ⟨none, none, none, none, none⟩).1 (by norm_num)
    (by intro a _ _; exact trivial)
  have h2 := (apiRequest_spec
    (fun _ => AttemptOutcome.response 429 ⟨none, none, some 30, none, some 5⟩) 3 1
    ⟨none, none, some 30, none, some 5⟩).2 (by norm_num) (by norm_num)
    (by intro a ha1 ha2; omega) rfl
  refine ⟨h1.1, ?_, ?_, h2.1, h2.2.2.2⟩
  · rw [h1.2.1]
    rfl
  · rw [h1.2.2.2]
    rfl

-- ============================================================================
-- Helper lemmas about the event pattern
-- ============================================================================

/-- Prepending text events preserves the event pattern. -/
theorem eventSeqOK_texts (l : List String) (rest : List StreamEvent)
    (h : EventSeqOK rest) : EventSeqOK (l.map StreamEvent.text ++ rest) := by
  induction l with
  | nil => simpa
  | cons s t ih =>
    simp only [List.map_cons, List.cons_append]
    exact EventSeqOK.text s _ ih

/-- Prepending the Claude tool pairs preserves the event pattern. -/
theorem eventSeqOK_toolPairs (exec : String → JValue → JValue)
    (tus : List ToolUseBlock) (rest : List StreamEvent) (h : EventSeqOK rest) :
    EventSeqOK (toolPairEvents exec tus ++ rest) := by
  induction tus with
  | nil => simpa [toolPairEvents]
  | cons tu t ih =>
    simp only [toolPairEvents, List.flatMap_cons, List.cons_append, List.nil_append,
      List.append_assoc] at ih ⊢
    exact EventSeqOK.pair tu.name _ _ ih

/-- Prepending the OpenAI tool pairs preserves the event pattern. -/
theorem eventSeqOK_openaiPairs (exec : String → JValue → JValue)
    (parseJson : String → Option JValue) (pending : List PendingToolCall)
    (rest : List StreamEvent) (h : EventSeqOK rest) :
    EventSeqOK (openaiToolPairEvents exec parseJson pending ++ rest) := by
  induction pending with
  | nil => simpa [openaiToolPairEvents]
  | cons tc t ih =>
    simp only [openaiToolPairEvents, List.flatMap_cons, List.cons_append, List.nil_append,
      List.append_assoc] at ih ⊢
    exact EventSeqOK.pair tc.name _ _ ih

/-- Text events carry no tool events. -/
theorem filter_isToolEvent_texts (p : StreamEvent → Bool)
    (hp1 : ∀ s, p (StreamEvent.text s) = false) (l : List String) :
    ((l.map StreamEvent.text).filter fun e => p e) = [] := by
  induction l with
  | nil => rfl
  | cons s t ih =>
    simp [List.filter_cons, hp1 s, ih]

/-- Every element of a Claude pair block is a tool event. -/
theorem filter_isToolEvent_toolPairs (exec : String → JValue → JValue)
    (tus : List ToolUseBlock) :
    (toolPairEvents exec tus).filter isToolEvent = toolPairEvents exec tus := by
  refine List.filter_eq_self.mpr ?_
  intro e he
  simp only [toolPairEvents, List.mem_flatMap, List.mem_cons, List.mem_singleton,
    List.not_mem_nil, or_false] at he
  obtain ⟨tu, _, he2⟩ := he
  rcases he2 with h | h <;> subst h <;> rfl

/-- Every element of an OpenAI pair block is a tool event. -/
theorem filter_isToolEvent_openaiPairs (exec : String → JValue → JValue)
    (parseJson : String → Option JValue) (pending : List PendingToolCall) :
    (openaiToolPairEvents exec parseJson pending).filter isToolEvent =
      openaiToolPairEvents exec parseJson pending := by
  refine List.filter_eq_self.mpr ?_
  intro e he
  simp only [openaiToolPairEvents, List.mem_flatMap, List.mem_cons, List.mem_singleton,
    List.not_mem_nil, or_false] at he
  obtain ⟨tc, _, he2⟩ := he
  rcases he2 with h | h <;> subst h <;> rfl

/-- The `tool_end` events of a Claude pair block, in order. -/
theorem filter_isToolEndEvent_toolPairs (exec : String → JValue → JValue)
    (tus : List ToolUseBlock) :
    (toolPairEvents exec tus).filter isToolEndEvent =
      tus.map (fun tu => StreamEvent.tool_end tu.name (exec tu.name tu.input)) := by
  induction tus with
  | nil => rfl
  | cons tu t ih =>
    simp only [toolPairEvents, List.flatMap_cons] at ih ⊢
    simp [List.filter_cons, isToolEndEvent, ih]

/-- Counting `tool_start` events of a Claude pair block. -/
theorem countP_toolStart_toolPairs (exec : String → JValue → JValue)
    (tus : List ToolUseBlock) :
    (toolPairEvents exec tus).countP isToolStartEvent = tus.length := by
  induction tus with
  | nil => rfl
  | cons tu t ih =>
    simp only [toolPairEvents, List.flatMap_cons] at ih ⊢
    simp [List.countP_cons, isToolStartEvent, ih, List.countP_append]

/-- A Claude pair block contains no error events. -/
theorem countP_error_toolPairs (exec : String → JValue → JValue)
    (tus : List ToolUseBlock) :
    (toolPairEvents exec tus).countP isErrorEvent = 0 := by
  induction tus with
  | nil => rfl
  | cons tu t ih =>
    simp only [toolPairEvents, List.flatMap_cons] at ih ⊢
    simp [List.countP_append, List.countP_cons, isErrorEvent, ih]

-- ============================================================================
-- Run lemmas for the two streaming loops
-- ============================================================================

/-- Every run of the Claude streaming loop matches the event pattern. -/
theorem claudeRun_eventSeqOK (exec : String → JValue → JValue)
    (script : ℕ → ClaudeRound) :
    ∀ (fuel turn : ℕ) (acc : List ToolCallResult),
      EventSeqOK (chatStreamWithClaude exec script turn fuel acc).1 := by
  intro fuel
  induction fuel with
  | zero => intro turn acc; exact EventSeqOK.done acc
  | succ n ih =>
    intro turn acc
    cases hs : script turn with
    | throws textDeltas errMsg =>
      simp only [chatStreamWithClaude, hs]
      exact eventSeqOK_texts _ _ (EventSeqOK.error errMsg)
    | responds msg =>
      by_cases hemp : msg.toolUses.isEmpty
      · simp only [chatStreamWithClaude, hs, hemp, if_true]
        exact eventSeqOK_texts _ _ (EventSeqOK.done acc)
      · by_cases hstop : msg.stopEndTurn
        · simp only [chatStreamWithClaude, hs, hemp, hstop, Bool.false_eq_true, if_false,
            if_true]
          rw [List.append_assoc]
          exact eventSeqOK_texts _ _ (eventSeqOK_toolPairs _ _ _ (EventSeqOK.done _))
        · simp only [chatStreamWithClaude, hs, hemp, hstop, Bool.false_eq_true, if_false]
          rw [List.append_assoc]
          exact eventSeqOK_texts _ _ (eventSeqOK_toolPairs _ _ _ (ih _ _))

/-- Every run of the OpenAI streaming loop matches the event pattern. -/
theorem openaiRun_eventSeqOK (exec : String → JValue → JValue)
    (parseJson : String → Option JValue) (script : ℕ → OpenAIRound) :
    ∀ (fuel turn : ℕ) (acc : List ToolCallResult),
      EventSeqOK (chatStreamWithOpenAI exec parseJson script turn fuel acc) := by
  intro fuel
  induction fuel with
  | zero => intro turn acc; exact EventSeqOK.done acc
  | succ n ih =>
    intro turn acc
    cases hs : script turn with
    | throws items errMsg =>
      simp only [chatStreamWithOpenAI, hs]
      exact eventSeqOK_texts _ _ (EventSeqOK.error errMsg)
    | completes items =>
      by_cases hemp : (pendingOf items).isEmpty
      · simp only [chatStreamWithOpenAI, hs, hemp, if_true]
        exact eventSeqOK_texts _ _ (EventSeqOK.done acc)
      · simp only [chatStreamWithOpenAI, hs, hemp, Bool.false_eq_true, if_false]
        rw [List.append_assoc]
        exact eventSeqOK_texts _ _ (eventSeqOK_openaiPairs _ _ _ _ (ih _ _))

/-- The tool events of a Claude run are exactly the pairs of the executed
tool uses, in request order. -/
theorem claudeRun_toolEvents (exec : String → JValue → JValue)
    (script : ℕ → ClaudeRound) :
    ∀ (fuel turn : ℕ) (acc : List ToolCallResult),
      (chatStreamWithClaude exec script turn fuel acc).1.filter isToolEvent =
        toolPairEvents exec (claudeExecutedUses script turn fuel) := by
  intro fuel
  induction fuel with
  | zero => intro turn acc; rfl
  | succ n ih =>
    intro turn acc
    cases hs : script turn with
    | throws textDeltas errMsg =>
      simp only [chatStreamWithClaude, claudeExecutedUses, hs]
      rw [List.filter_append]
      rw [filter_isToolEvent_texts isToolEvent (fun _ => rfl)]
      rfl
    | responds msg =>
      by_cases hemp : msg.toolUses.isEmpty
      · simp only [chatStreamWithClaude, claudeExecutedUses, hs, hemp, if_true]
        rw [List.filter_append, filter_isToolEvent_texts isToolEvent (fun _ => rfl)]
        rfl
      · by_cases hstop : msg.stopEndTurn
        · simp only [chatStreamWithClaude, claudeExecutedUses, hs, hemp, hstop,
            Bool.false_eq_true, if_false, if_true]
          rw [List.filter_append, List.filter_append,
            filter_isToolEvent_texts isToolEvent (fun _ => rfl),
            filter_isToolEvent_toolPairs]
          simp [isToolEvent]
        · simp only [chatStreamWithClaude, claudeExecutedUses, hs, hemp, hstop,
            Bool.false_eq_true, if_false]
          rw [List.filter_append, List.filter_append,
            filter_isToolEvent_texts isToolEvent (fun _ => rfl),
            filter_isToolEvent_toolPairs, ih]
          simp [toolPairEvents, List.flatMap_append]

/-- The tool events of an OpenAI run are exactly the pairs of the executed
pending calls, in request order. -/
theorem openaiRun_toolEvents (exec : String → JValue → JValue)
    (parseJson : String → Option JValue) (script : ℕ → OpenAIRound) :
    ∀ (fuel turn : ℕ) (acc : List ToolCallResult),
      (chatStreamWithOpenAI exec parseJson script turn fuel acc).filter isToolEvent =
        openaiToolPairEvents exec parseJson (openaiExecutedCalls script turn fuel) := by
  intro fuel
  induction fuel with
  | zero => intro turn acc; rfl
  | succ n ih =>
    intro turn acc
    cases hs : script turn with
    | throws items errMsg =>
      simp only [chatStreamWithOpenAI, openaiExecutedCalls, hs]
      rw [List.filter_append, filter_isToolEvent_texts isToolEvent (fun _ => rfl)]
      rfl
    | completes items =>
      by_cases hemp : (pendingOf items).isEmpty
      · simp only [chatStreamWithOpenAI, openaiExecutedCalls, hs, hemp, if_true]
        rw [List.filter_append, filter_isToolEvent_texts isToolEvent (fun _ => rfl)]
        rfl
      · simp only [chatStreamWithOpenAI, openaiExecutedCalls, hs, hemp,
          Bool.false_eq_true, if_false]
        rw [List.filter_append, List.filter_append,
          filter_isToolEvent_texts isToolEvent (fun _ => rfl),
          filter_isToolEvent_openaiPairs, ih]
        simp [openaiToolPairEvents, List.flatMap_append]

/-- The `tool_end` events of a Claude run carry exactly the executor's
result for each executed tool use, in request order. -/
theorem claudeRun_toolEndEvents (exec : String → JValue → JValue)
    (script : ℕ → ClaudeRound) :
    ∀ (fuel turn : ℕ) (acc : List ToolCallResult),
      (chatStreamWithClaude exec script turn fuel acc).1.filter isToolEndEvent =
        (claudeExecutedUses script turn fuel).map
          (fun tu => StreamEvent.tool_end tu.name (exec tu.name tu.input)) := by
  intro fuel
  induction fuel with
  | zero => intro turn acc; rfl
  | succ n ih =>
    intro turn acc
    cases hs : script turn with
    | throws textDeltas errMsg =>
      simp only [chatStreamWithClaude, claudeExecutedUses, hs]
      rw [List.filter_append, filter_isToolEvent_texts isToolEndEvent (fun _ => rfl)]
      rfl
    | responds msg =>
      by_cases hemp : msg.toolUses.isEmpty
      · simp only [chatStreamWithClaude, claudeExecutedUses, hs, hemp, if_true]
        rw [List.filter_append, filter_isToolEvent_texts isToolEndEvent (fun _ => rfl)]
        rfl
      · by_cases hstop : msg.stopEndTurn
        · simp only [chatStreamWithClaude, claudeExecutedUses, hs, hemp, hstop,
            Bool.false_eq_true, if_false, if_true]
          rw [List.filter_append, List.filter_append,
            filter_isToolEvent_texts isToolEndEvent (fun _ => rfl),
            filter_isToolEndEvent_toolPairs]
          simp [isToolEndEvent]
        · simp only [chatStreamWithClaude, claudeExecutedUses, hs, hemp, hstop,
            Bool.false_eq_true, if_false]
          rw [List.filter_append, List.filter_append,
            filter_isToolEvent_texts isToolEndEvent (fun _ => rfl),
            filter_isToolEndEvent_toolPairs, ih]
          simp

/-- The Conversation entries appended by a Claude run are exactly
`claudeHistory`: per round the assistant message and the paired
`(tool_use_id, result)` entries. -/
theorem claudeRun_history (exec : String → JValue → JValue)
    (script : ℕ → ClaudeRound) :
    ∀ (fuel turn : ℕ) (acc : List ToolCallResult),
      (chatStreamWithClaude exec script turn fuel acc).2 =
        claudeHistory exec script turn fuel := by
  intro fuel
  induction fuel with
  | zero => intro turn acc; rfl
  | succ n ih =>
    intro turn acc
    cases hs : script turn with
    | throws textDeltas errMsg =>
      simp only [chatStreamWithClaude, claudeHistory, hs]
    | responds msg =>
      by_cases hemp : msg.toolUses.isEmpty
      · simp only [chatStreamWithClaude, claudeHistory, hs, hemp, if_true]
      · by_cases hstop : msg.stopEndTurn
        · simp only [chatStreamWithClaude, claudeHistory, hs, hemp, hstop,
            Bool.false_eq_true, if_false, if_true]
          simp
        · simp only [chatStreamWithClaude, claudeHistory, hs, hemp, hstop,
            Bool.false_eq_true, if_false]
          rw [ih]

/-- Text events contribute nothing to a `countP` over a text-rejecting
predicate. -/
theorem countP_texts (p : StreamEvent → Bool) (hp : ∀ s, p (StreamEvent.text s) = false)
    (l : List String) : (l.map StreamEvent.text).countP p = 0 := by
  rw [List.countP_eq_length_filter, filter_isToolEvent_texts p hp]
  rfl

/-- Under a script that requests at least one capability invocation on every
round (with a tool-use stop reason), the Claude stream run ends in a `done`
event, emits no error event, and the executed uses are exactly the requests
of `fuel` consecutive rounds. -/
theorem claudeRun_turnLimit_aux (exec : String → JValue → JValue)
    (script : ℕ → ClaudeRound)
    (htools : ∀ t, ∃ msg, script t = ClaudeRound.responds msg ∧
      msg.toolUses ≠ [] ∧ msg.stopEndTurn = false) :
    ∀ (fuel turn : ℕ) (acc : List ToolCallResult),
      (∃ tcs, (chatStreamWithClaude exec script turn fuel acc).1.getLast? =
        some (StreamEvent.done tcs)) ∧
      (chatStreamWithClaude exec script turn fuel acc).1.countP isErrorEvent = 0 ∧
      (chatStreamWithClaude exec script turn fuel acc).1.countP isToolStartEvent =
        (claudeExecutedUses script turn fuel).length ∧
      claudeExecutedUses script turn fuel =
        ((List.range' turn fuel).map (fun t => roundUses (script t))).flatten := by
  intro fuel
  induction fuel with
  | zero =>
    intro turn acc
    exact ⟨⟨acc, rfl⟩, rfl, rfl, rfl⟩
  | succ n ih =>
    intro turn acc
    obtain ⟨msg, hs, hne, hstop⟩ := htools turn
    have hemp : ¬msg.toolUses.isEmpty = true := by
      simp [List.isEmpty_iff, hne]
    obtain ⟨⟨tcs, ihA⟩, ihB, ihC, ihD⟩ :=
      ih (turn + 1) (acc ++ toolCallRecords exec msg.toolUses)
    have hrest : (chatStreamWithClaude exec script (turn + 1) n
        (acc ++ toolCallRecords exec msg.toolUses)).1 ≠ [] := by
      intro he
      rw [he] at ihA
      simp at ihA
    have hrange : List.range' turn (n + 1) = turn :: List.range' (turn + 1) n :=
      List.range'_succ ..
    refine ⟨⟨tcs, ?_⟩, ?_, ?_, ?_⟩
    · simp only [chatStreamWithClaude, hs, hemp, hstop, Bool.false_eq_true, if_false]
      rw [List.append_assoc, List.getLast?_append_of_ne_nil, List.getLast?_append_of_ne_nil]
      · exact ihA
      · exact hrest
      · intro he
        exact hrest (List.append_eq_nil.mp he).2
    · simp only [chatStreamWithClaude, hs, hemp, hstop, Bool.false_eq_true, if_false]
      rw [List.countP_append, List.countP_append,
        countP_texts isErrorEvent (fun _ => rfl), countP_error_toolPairs, ihB]
    · simp only [chatStreamWithClaude, claudeExecutedUses, hs, hemp, hstop,
        Bool.false_eq_true, if_false]
      rw [List.countP_append, List.countP_append,
        countP_texts isToolStartEvent (fun _ => rfl), countP_toolStart_toolPairs, ihC]
      simp
    · simp only [claudeExecutedUses, hs, hemp, hstop, Bool.false_eq_true, if_false]
      rw [ihD, hrange, List.map_cons, List.flatten_cons, hs]
      rfl

/-- Under an always-tools script the non-streaming Claude loop runs out of
fuel and returns the turn-limit notice with `needsContinue` set. -/
theorem chatWithClaude_turnLimit_aux (exec : String → JValue → JValue)
    (provider : String) (script : ℕ → ClaudeRound)
    (htools : ∀ t, ∃ msg, script t = ClaudeRound.responds msg ∧
      msg.toolUses ≠ [] ∧ msg.stopEndTurn = false) :
    ∀ (fuel turn : ℕ) (acc : List ToolCallResult),
      ∃ tcs, chatWithClaude exec provider script turn fuel acc =
        { text := turnLimitText, toolCalls := tcs, needsContinue := true } := by
  intro fuel
  induction fuel with
  | zero => intro turn acc; exact ⟨acc, rfl⟩
  | succ n ih =>
    intro turn acc
    obtain ⟨msg, hs, hne, hstop⟩ := htools turn
    have hemp : ¬msg.toolUses.isEmpty = true := by
      simp [List.isEmpty_iff, hne]
    obtain ⟨tcs, ihe⟩ := ih (turn + 1) (acc ++ toolCallRecords exec msg.toolUses)
    refine ⟨tcs, ?_⟩
    simp only [chatWithClaude, hs, hemp, hstop, Bool.false_eq_true, if_false]
    exact ihe

-- ============================================================================
-- Theorems: C1 (event sequence), C3 (turn limit), C9 (failure containment)
-- ============================================================================

/-- C1: every run of either streaming loop emits zero or more text events
interleaved with adjacent same-name `(tool_start, tool_end)` pairs — exactly
one pair per requested capability invocation, in request order, with no
interleaving between different invocations' pairs — followed by exactly one
terminal event (`done` or `error`) after which nothing further is emitted. -/
theorem chatStream_event_sequence (exec : String → JValue → JValue)
    (parseJson : String → Option JValue) (cscript : ℕ → ClaudeRound)
    (oscript : ℕ → OpenAIRound) (maxTurns turn : ℕ) (acc : List ToolCallResult) :
    EventSeqOK (chatStreamWithClaude exec cscript turn maxTurns acc).1 ∧
    (chatStreamWithClaude exec cscript turn maxTurns acc).1.filter isToolEvent =
      toolPairEvents exec (claudeExecutedUses cscript turn maxTurns) ∧
    EventSeqOK (chatStreamWithOpenAI exec parseJson oscript turn maxTurns acc) ∧
    (chatStreamWithOpenAI exec parseJson oscript turn maxTurns acc).filter isToolEvent =
      openaiToolPairEvents exec parseJson (openaiExecutedCalls oscript turn maxTurns) :=
  ⟨claudeRun_eventSeqOK exec cscript maxTurns turn acc,
   claudeRun_toolEvents exec cscript maxTurns turn acc,
   openaiRun_eventSeqOK exec parseJson oscript maxTurns turn acc,
   openaiRun_toolEvents exec parseJson oscript maxTurns turn acc⟩

/-- C3: if the model requests at least one capability invocation on every
round (responding with tool uses and a non-`end_turn` stop reason), the
streaming loop performs exactly `maxTurns` rounds — its `tool_start` events
are those of the first `maxTurns` rounds' requests — and terminates with a
`done` event and no `error` event; the non-streaming loop returns the
turn-limit notice with `needsContinue` set; and the constructor's default
`maxTurns` is 10. -/
theorem chat_turn_limit (exec : String → JValue → JValue) (provider : String)
    (script : ℕ → ClaudeRound) (maxTurns : ℕ)
    (htools : ∀ t, ∃ msg, script t = ClaudeRound.responds msg ∧
      msg.toolUses ≠ [] ∧ msg.stopEndTurn = false) :
    (∃ tcs, (chatStreamWithClaude exec script 0 maxTurns []).1.getLast? =
      some (StreamEvent.done tcs)) ∧
    (chatStreamWithClaude exec script 0 maxTurns []).1.countP isErrorEvent = 0 ∧
    (chatStreamWithClaude exec script 0 maxTurns []).1.countP isToolStartEvent =
      ((List.range maxTurns).map (fun t => (roundUses (script t)).length)).sum ∧
    (∃ tcs, chatWithClaude exec provider script 0 maxTurns [] =
      { text := turnLimitText, toolCalls := tcs, needsContinue := true }) ∧
    resolveMaxTurns none = 10 := by
  obtain ⟨hA, hB, hC, hD⟩ := claudeRun_turnLimit_aux exec script htools maxTurns 0 []
  refine ⟨hA, hB, ?_, chatWithClaude_turnLimit_aux exec provider script htools maxTurns 0 [],
    rfl⟩
  rw [hC, hD, List.length_flatten, List.map_map, List.range_eq_range']
  rfl

/-- C9: a capability-level failure never escapes `executeTool` and never
aborts the round. Unknown names, validation failures, and handler
exceptions each become a structured `{ error: ... }` result; unparseable
OpenAI tool arguments fall back to the empty input object; and in the
Claude loop every executed invocation produces exactly one `tool_end` event
carrying the executor's result and has that result appended to the
Conversation as its paired tool-result entry, so the loop continues. -/
theorem tool_failure_containment (reg : Registry) (name : String)
    (input : JValue) (parseJson : String → Option JValue) (argStr : String)
    (exec : String → JValue → JValue) (cscript : ℕ → ClaudeRound) :
    (reg name = none → executeTool reg name input = errObj ("未知工具: " ++ name)) ∧
    (∀ tool e, reg name = some tool → tool.parse input = Except.error e →
      executeTool reg name input = errObj ("工具执行失败: " ++ e)) ∧
    (∀ tool v e, reg name = some tool → tool.parse input = Except.ok v →
      tool.handler v = Except.error e →
      executeTool reg name input = errObj ("工具执行失败: " ++ e)) ∧
    (parseJson argStr = none → resolveArgs parseJson argStr = JValue.obj []) ∧
    (∀ (fuel2 turn : ℕ) (acc : List ToolCallResult),
      (chatStreamWithClaude exec cscript turn fuel2 acc).1.filter isToolEndEvent =
        (claudeExecutedUses cscript turn fuel2).map
          (fun tu => StreamEvent.tool_end tu.name (exec tu.name tu.input))) ∧
    (∀ (fuel2 turn : ℕ) (acc : List ToolCallResult),
      (chatStreamWithClaude exec cscript turn fuel2 acc).2 =
        claudeHistory exec cscript turn fuel2) := by
  refine ⟨?_, ?_, ?_, ?_, ?_, ?_⟩
  · intro h
    simp [executeTool, h]
  · intro tool e hreg hparse
    simp [executeTool, hreg, hparse]
  · intro tool v e hreg hparse hhandler
    simp [executeTool, hreg, hparse, hhandler]
  · intro h
    simp [resolveArgs, h]
  · intro fuel2 turn acc
    exact claudeRun_toolEndEvents exec cscript fuel2 turn acc
  · intro fuel2 turn acc
    exact claudeRun_history exec cscript fuel2 turn acc

/-- Closed instance for C3: a stub that always requests one `echo`
invocation makes the two-turn streaming run emit exactly 2 `tool_start`
events and the non-streaming run return the turn-limit notice. -/
theorem chat_turn_limit_witness :
    (chatStreamWithClaude (fun _ _ => JValue.obj [])
      (fun _ => ClaudeRound.responds ⟨[], [⟨"id1", "echo", JValue.obj []⟩], false⟩)
      0 2 []).1.countP isToolStartEvent = 2 ∧
    (∃ tcs, chatWithClaude (fun _ _ => JValue.obj []) "claude"
      (fun _ => ClaudeRound.responds ⟨[], [⟨"id1", "echo", JValue.obj []⟩], false⟩)
      0 2 [] = { text := turnLimitText, toolCalls := tcs, needsContinue := true }) := by
  have h := chat_turn_limit (fun _ _ => JValue.obj []) "claude"
    (fun _ => ClaudeRound.responds ⟨[], [⟨"id1", "echo", JValue.obj []⟩], false⟩) 2
    (fun t => ⟨⟨[], [⟨"id1", "echo", JValue.obj []⟩], false⟩, rfl,
      List.cons_ne_nil _ _, rfl⟩)
  refine ⟨?_, h.2.2.2.1⟩
  rw [h.2.2.1]
  rfl

/-- Closed instance for C9: an empty registry yields the structured
unknown-tool failure object, and an unparseable argument string resolves to
the empty input object. -/
theorem tool_failure_containment_witness :
    executeTool (fun _ => none) "nope" (JValue.obj []) =
      errObj ("未知工具: " ++ "nope") ∧
    resolveArgs (fun _ => none) "not json" = JValue.obj [] := by
  have h := tool_failure_containment (fun _ => none) "nope" (JValue.obj [])
    (fun _ => none) "not json" (fun _ _ => JValue.obj [])
    (fun _ => ClaudeRound.throws [] "e")
  exact ⟨h.1 rfl, h.2.2.2.1 rfl⟩

-- ============================================================================
-- Theorems: C4 (fallback gating), C5 (fallback behaviour)
-- ============================================================================

/-- The fallback branch of `executeTool` is guarded by the tool name, so
for every tool other than `moltbook_search` — in particular for the
`moltbook_get_feed` fetch `fallbackSearch` performs — the full `executeTool`
coincides with the fallback-free `executeToolBase`: the fallback can never
re-enter itself. -/
theorem executeTool_eq_base (reg : Registry) (name : String)
    (input : JValue) (h : ¬ name = "moltbook_search") :
    executeTool reg name input = executeToolBase reg name input := by
  cases hreg : reg name with
  | none => simp [executeTool, executeToolBase, hreg]
  | some tool =>
    cases hp : tool.parse input with
    | error e => simp [executeTool, executeToolBase, hreg, hp]
    | ok v =>
      cases hh : tool.handler v with
      | error e => simp [executeTool, executeToolBase, hreg, hp, hh]
      | ok r => simp [executeTool, executeToolBase, hreg, hp, hh, h]

/-- C4: once the search capability's handler has produced a result, the
client-side fallback runs iff that result is a failure whose diagnostic
indicates a server-side fault (error text containing "search failed" or
`debug.status === 500`); any failing result without such a diagnostic — a
client validation error — is returned unchanged and no fallback runs. -/
theorem fallback_gating (reg : Registry) (input : JValue) (tool : ToolDefinition)
    (validatedInput result : JValue)
    (hreg : reg "moltbook_search" = some tool)
    (hparse : tool.parse input = Except.ok validatedInput)
    (hhandler : tool.handler validatedInput = Except.ok result) :
    (isToolFailure result = true → indicatesServerFault result = false →
      executeTool reg "moltbook_search" input = result) ∧
    (isSearchFailure result = false →
      executeTool reg "moltbook_search" input = result) ∧
    (isSearchFailure result = true →
      executeTool reg "moltbook_search" input = fallbackSearch reg validatedInput) := by
  refine ⟨?_, ?_, ?_⟩
  · intro h1 h2
    have hf : isSearchFailure result = false := by
      simp [isSearchFailure, h2]
    simp [executeTool, hreg, hparse, hhandler, hf]
  · intro h
    simp [executeTool, hreg, hparse, hhandler, h]
  · intro h
    simp [executeTool, hreg, hparse, hhandler, h]

/-- Closed instance for C4: a search failure with the client-side
diagnostic "Invalid query" (no server fault) is returned unchanged. -/
theorem fallback_gating_witness :
    executeTool
      (fun n => if n = "moltbook_search" then
        some ⟨fun v => Except.ok v, fun _ => Except.ok (JValue.obj
          [("success", JValue.bool false), ("error", JValue.str "Invalid query")])⟩
        else none)
      "moltbook_search" (JValue.obj []) =
      JValue.obj [("success", JValue.bool false), ("error", JValue.str "Invalid query")] := by
  have h := fallback_gating
    (fun n => if n = "moltbook_search" then
      some ⟨fun v => Except.ok v, fun _ => Except.ok (JValue.obj
        [("success", JValue.bool false), ("error", JValue.str "Invalid query")])⟩
      else none)
    (JValue.obj [])
    ⟨fun v => Except.ok v, fun _ => Except.ok (JValue.obj
      [("success", JValue.bool false), ("error", JValue.str "Invalid query")])⟩
    (JValue.obj [])
    (JValue.obj [("success", JValue.bool false), ("error", JValue.str "Invalid query")])
    rfl rfl rfl
  exact h.1 rfl rfl

/-- C5: the fallback fetches a recent window of at most 100 items
(`{ sort: "new", limit: 100 }`); if that fetch fails — the feed tool
returns an object without a truthy `success` or without a `posts` array
(which is what `{ success: false, ... }` and caught-exception `{ error }`
results look like), or an array, or a primitive — the fallback returns a
terminal "Search failed (fallback feed unavailable)" failure; otherwise it
case-insensitively substring-matches the original query against each item's
combined title and body and returns at most 20 matches, each tagged
`fallback: true`, together with the degraded-results note — and it never
invokes itself recursively (its only inner call is the feed tool, for which
`executeTool` cannot re-enter the fallback). -/
theorem fallbackSearch_spec (reg : Registry) (input : JValue) :
    jfield fallbackFeedRequest "limit" = JValue.num 100 ∧
    jfield fallbackFeedRequest "sort" = JValue.str "new" ∧
    (∀ name2 input2, ¬ name2 = "moltbook_search" →
      executeTool reg name2 input2 = executeToolBase reg name2 input2) ∧
    ((∀ ff, executeToolBase reg "moltbook_get_feed" fallbackFeedRequest ≠ JValue.obj ff) →
     (∀ es, executeToolBase reg "moltbook_get_feed" fallbackFeedRequest ≠ JValue.arr es) →
      fallbackSearch reg input =
        JValue.obj [("success", JValue.bool false),
          ("error", JValue.str "Search failed (fallback feed unavailable)")]) ∧
    (∀ ff, executeToolBase reg "moltbook_get_feed" fallbackFeedRequest = JValue.obj ff →
      jsTruthy ((lookupField ff "success").getD JValue.null) = false ∨
        (∀ ps, lookupField ff "posts" ≠ some (JValue.arr ps)) →
      fallbackSearch reg input =
        JValue.obj
          [("success", JValue.bool false),
           ("error", JValue.str "Search failed (fallback feed unavailable)"),
           ("original", input)]) ∧
    (∀ es, executeToolBase reg "moltbook_get_feed" fallbackFeedRequest = JValue.arr es →
      fallbackSearch reg input =
        JValue.obj
          [("success", JValue.bool false),
           ("error", JValue.str "Search failed (fallback feed unavailable)"),
           ("original", input)]) ∧
    (∀ ff, executeToolBase reg "moltbook_get_feed" fallbackFeedRequest = JValue.obj ff →
      ∀ ps, lookupField ff "posts" = some (JValue.arr ps) →
      jsTruthy ((lookupField ff "success").getD JValue.null) = true →
      fallbackSearch reg input =
        JValue.obj
          [("success", JValue.bool true),
           ("results", JValue.arr
             (((fallbackMatches (extractSearchQuery input) ps).take 20).map
               fallbackResultItem)),
           ("note", JValue.str fallbackNote),
           ("query", JValue.str (extractSearchQuery input))] ∧
      (((fallbackMatches (extractSearchQuery input) ps).take 20).map
        fallbackResultItem).length ≤ 20 ∧
      (∀ r ∈ ((fallbackMatches (extractSearchQuery input) ps).take 20).map
        fallbackResultItem, jfield r "fallback" = JValue.bool true)) := by
  refine ⟨rfl, rfl, ?_, ?_, ?_, ?_, ?_⟩
  · intro name2 input2 h
    exact executeTool_eq_base reg name2 input2 h
  · intro h1 h2
    unfold fallbackSearch
    cases hfeed : executeToolBase reg "moltbook_get_feed" fallbackFeedRequest with
    | obj ff => exact absurd hfeed (h1 ff)
    | arr es => exact absurd hfeed (h2 es)
    | null => rfl
    | bool b => rfl
    | num q => rfl
    | str s => rfl
  · intro ff hfeed hbad
    unfold fallbackSearch
    simp only [hfeed]
    cases hp : lookupField ff "posts" with
    | none => rfl
    | some v =>
      cases v with
      | arr ps =>
        rcases hbad with htr | hnp
        · simp [htr]
        · exact absurd hp (hnp ps)
      | null => rfl
      | bool b => rfl
      | num q => rfl
      | str s => rfl
      | obj o => rfl
  · intro es hfeed
    unfold fallbackSearch
    simp [hfeed]
  · intro ff hfeed ps hposts htruthy
    refine ⟨?_, ?_, ?_⟩
    · simp only [fallbackSearch, hfeed, hposts, htruthy, if_true]
    · rw [List.length_map]
      exact List.length_take_le ..
    · intro r hr
      rw [List.mem_map] at hr
      obtain ⟨p, _, rfl⟩ := hr
      rfl

/-- Closed instance for C5: against a two-post feed, the query "hello"
matches only the first post, which is returned tagged as a fallback result
with the degraded-results note; and against a feed tool that fails with a
`{ success: false, ... }` object, the fallback returns the
fallback-exhaustion failure. -/
theorem fallbackSearch_spec_witness :
    (fallbackSearch
      (fun n => if n = "moltbook_get_feed" then
        some ⟨fun v => Except.ok v, fun _ => Except.ok (JValue.obj
          [("success", JValue.bool true),
           ("posts", JValue.arr
             [JValue.obj [("id", JValue.str "1"), ("title", JValue.str "Hello World"),
               ("content", JValue.str "abc")],
              JValue.obj [("id", JValue.str "2"), ("title", JValue.str "Other")]])])⟩
        else none)
      (JValue.obj [("query", JValue.str "hello")]) =
      JValue.obj
        [("success", JValue.bool true),
         ("results", JValue.arr
           [JValue.obj [("id", JValue.str "1"), ("type", JValue.str "post"),
             ("title", JValue.str "Hello World"), ("content", JValue.str "abc"),
             ("similarity", JValue.num 0), ("post_id", JValue.str "1"),
             ("fallback", JValue.bool true)]]),
         ("note", JValue.str fallbackNote),
         ("query", JValue.str "hello")]) ∧
    fallbackSearch
      (fun n => if n = "moltbook_get_feed" then
        some ⟨fun v => Except.ok v, fun _ => Except.ok (JValue.obj
          [("success", JValue.bool false),
           ("error", JValue.str "Search failed: upstream 500")])⟩
        else none)
      (JValue.obj [("query", JValue.str "hello")]) =
      JValue.obj
        [("success", JValue.bool false),
         ("error", JValue.str "Search failed (fallback feed unavailable)"),
         ("original", JValue.obj [("query", JValue.str "hello")])] := by
  refine ⟨?_, ?_⟩
  case refine_2 =>
    exact (fallbackSearch_spec
      (fun n => if n = "moltbook_get_feed" then
        some ⟨fun v => Except.ok v, fun _ => Except.ok (JValue.obj
          [("success", JValue.bool false),
           ("error", JValue.str "Search failed: upstream 500")])⟩
        else none)
      (JValue.obj [("query", JValue.str "hello")])).2.2.2.2.1
      [("success", JValue.bool false),
       ("error", JValue.str "Search failed: upstream 500")]
      rfl (Or.inl rfl)
  have h := (fallbackSearch_spec
    (fun n => if n = "moltbook_get_feed" then
      some ⟨fun v => Except.ok v, fun _ => Except.ok (JValue.obj
        [("success", JValue.bool true),
         ("posts", JValue.arr
           [JValue.obj [("id", JValue.str "1"), ("title", JValue.str "Hello World"),
             ("content", JValue.str "abc")],
            JValue.obj [("id", JValue.str "2"), ("title", JValue.str "Other")]])])⟩
      else none)
    (JValue.obj [("query", JValue.str "hello")])).2.2.2.2.2.2
    [("success", JValue.bool true),
     ("posts", JValue.arr
       [JValue.obj [("id", JValue.str "1"), ("title", JValue.str "Hello World"),
         ("content", JValue.str "abc")],
        JValue.obj [("id", JValue.str "2"), ("title", JValue.str "Other")]])]
    rfl
    [JValue.obj [("id", JValue.str "1"), ("title", JValue.str "Hello World"),
       ("content", JValue.str "abc")],
     JValue.obj [("id", JValue.str "2"), ("title", JValue.str "Other")]]
    rfl rfl
  rw [h.1]
  rfl

end OpenEcho
